import Mathlib

/-!
Verification of the FiHub SmartContractLists tooling: the Movement contract
fetcher's classifier and metadata overlay merge, the surgical updater, and the
Aptos seed-address loader, shallowly embedded over a JSON value model.
-/

set_option maxRecDepth 4000
set_option linter.unusedVariables false

namespace SCL

/-- A JSON value, as loaded by `json.load` in the source. Numbers are modelled
as integers: none of the verified logic does numeric arithmetic beyond the
`version.patch` counter, which is integral. Objects are insertion-ordered
association lists, matching Python dict semantics. -/
inductive JVal where
  | null
  | jbool (b : Bool)
  | jnum (n : Int)
  | jstr (s : String)
  | jarr (xs : List JVal)
  | jobj (kvs : List (String × JVal))

/-- A Python dict with string keys (a JSON object), insertion-ordered. -/
abbrev Dict := List (String × JVal)

/-- `d.get(k)` / `d[k]` on a Python dict: the value at the first matching key. -/
def dget (d : Dict) (k : String) : Option JVal :=
  match d with
  | [] => none
  | (k', v) :: rest => if k' = k then some v else dget rest k

/-- `d[k] = v` on a Python dict: replace in place if the key exists
(keeping its position), else append at the end. -/
def dset (d : Dict) (k : String) (v : JVal) : Dict :=
  match d with
  | [] => [(k, v)]
  | (k', v') :: rest => if k' = k then (k, v) :: rest else (k', v') :: dset rest k v

/-- `d.update(other)`: assign each of `other`'s entries in order. -/
def dupdate (d other : Dict) : Dict :=
  other.foldl (fun acc kv => dset acc kv.1 kv.2) d

/-- View a JSON value as an object. Non-object values in object position are a
type error in the Python source; they are modelled as the empty object. -/
def asObj : JVal → Dict
  | .jobj kvs => kvs
  | _ => []

/-- View a JSON value as an array. Iterating a non-list in list position is a
type error in the Python source; it is modelled as the empty array. -/
def asArr : JVal → List JVal
  | .jarr xs => xs
  | _ => []

/-- A JSON value usable as a JSON-object key: only strings are. A non-string
value used as a lookup key never matches any key of a JSON-loaded dict. -/
def jKey : JVal → Option String
  | .jstr s => some s
  | _ => none

/-! ## Classifier (movement_contract_fetcher.determine_tags / determine_platform) -/

/-- Character-list version of `needle.isPrefixOf hay` for substring search. -/
def leadsWith : List Char → List Char → Bool
  | [], _ => true
  | _ :: _, [] => false
  | a :: as, b :: bs => a == b && leadsWith as bs

/-- `needle in hay` for character lists: contiguous substring occurrence. -/
def containsSeq (needle : List Char) : List Char → Bool
  | [] => needle.isEmpty
  | c :: rest => leadsWith needle (c :: rest) || containsSeq needle rest

/-- Python's `needle in hay` on strings: contiguous substring test. -/
def strContains (hay needle : String) : Bool :=
  containsSeq needle.data hay.data

/-- Python `str.lower()` on the ASCII module names and addresses this program
handles (`Char.toLower` lowercases exactly the ASCII uppercase range). -/
def pyLower (s : String) : String := ⟨s.data.map Char.toLower⟩

/-- Python `str.strip()`: drop whitespace from both ends. -/
def pyStrip (s : String) : String :=
  ⟨((s.data.dropWhile Char.isWhitespace).reverse.dropWhile Char.isWhitespace).reverse⟩

/-- Lexicographic code-point comparison of character lists: the order Python's
`sorted` uses on strings. -/
def charListLe : List Char → List Char → Bool
  | [], _ => true
  | _ :: _, [] => false
  | a :: as, b :: bs =>
    if a < b then true else if a = b then charListLe as bs else false

/-- Python's `s <= t` on strings (lexicographic by code point). -/
def strLe (a b : String) : Bool := charListLe a.data b.data

/-- `module.get("name", "").lower()`. A non-string name would be a type
error at `.lower()` in the source; modelled as the empty string. -/
def modNameLower (module : Dict) : String :=
  match dget module "name" with
  | some (.jstr s) => pyLower s
  | _ => ""

/-- `module.get("address")`, as a comparison key. A missing address is `None`
and a non-string address is some other value; neither ever equals the string
constants it is compared against, so both are modelled as `none`. -/
def modAddr (module : Dict) : Option String :=
  match dget module "address" with
  | some (.jstr s) => some s
  | _ => none

def stablecoin_addresses : List String :=
  ["0x4d2969d384e440db9f1a51391cfc261d1ec08ee1bdf7b9711a6c05d485a4110a",
   "0x83121c9f9b0527d1f056e21a950d6bf3b9e9e2e8353d0e95ccea726713cbea39",
   "0x447721a30109c662dde9c73a0c2c9c9c459fb5e5a9c92f03c50fa69737f5d08d"]

def oft_address : String :=
  "0x4d2969d384e440db9f1a51391cfc261d1ec08ee1bdf7b9711a6c05d485a4110a"

def framework_addresses : List String :=
  ["0x0000000000000000000000000000000000000000000000000000000000000001",
   "0x0000000000000000000000000000000000000000000000000000000000000003",
   "0x0000000000000000000000000000000000000000000000000000000000000004",
   "0x000000000000000000000000000000000000000000000000000000000000000A"]

/-- `MovementContractFetcher.determine_tags`: each rule unconditionally appends
its tags to one growing list; the rules are modelled as the concatenation of
their conditional segments, in source order. -/
def determine_tags (module : Dict) : List String :=
  let n := modNameLower module
  (if strContains n "coin" || strContains n "token" then ["moveCoin"] else [])
    ++ (if strContains n "liquidity" || strContains n "swap" then ["AMM"] else [])
    ++ (if strContains n "lending" || strContains n "borrow" then ["lending"] else [])
    ++ (if strContains n "staking" || strContains n "liquid" then ["liquidStaking"] else [])
    ++ (if strContains n "vault" then ["vault"] else [])
    ++ (if strContains n "perpetual" || strContains n "derivative" then ["perpetuals"] else [])
    ++ (if strContains n "bridge" then ["bridge"] else [])
    ++ (if strContains n "governance" then ["governance"] else [])
    ++ (if (modAddr module).any (stablecoin_addresses.contains ·) then ["stablecoin", "bridged"]
        else [])
    ++ (if (modAddr module).any (· == oft_address) && strContains n "oft" then
          ["bridge", "crossChain"]
        else [])
    ++ (if (modAddr module).any (framework_addresses.contains ·) then ["native"] else [])

def platform_mappings : List (String × String) :=
  [("0x0000000000000000000000000000000000000000000000000000000000000001", "Movement"),
   ("0x0000000000000000000000000000000000000000000000000000000000000003", "Movement"),
   ("0x0000000000000000000000000000000000000000000000000000000000000004", "Movement"),
   ("0x000000000000000000000000000000000000000000000000000000000000000A", "Movement"),
   ("0xccd2621d2897d407e06d18e6ebe3be0e6d9b61f1e809dd49360522b9105812cf", "MovePosition"),
   ("0x31d0a30ae53e2ae852fcbdd1fce75a4ea6ad81417739ef96883eba9574ffe31e", "MovePosition"),
   ("0x58739edcac2f86e62342466f20809b268430aedf32937eba32eaac7e0bbf5233", "Echelon"),
   ("0x574ecf25ca263b4d9cbd43ded90bba6a52309e0cba2213f9606e4b4a3a20ffae", "Layerbank"),
   ("0x03f7399a0d3d646ce94ee0badf16c4c3f3c656fe3a5e142e83b5ebc011aa8b3d", "Mosaic"),
   ("0x26a95d4bd7d7fc3debf6469ff94837e03e887088bef3a3f2d08d1131141830d3", "Mosaic"),
   ("0x373aab3f20ef3c31fc4caa287b0f18170f4a0b4a28c80f7ee79434458f70f241", "Interest DEX"),
   ("0x46566b4a16a1261ab400ab5b9067de84ba152b5eb4016b217187f2a2ca980c5a", "YUZU"),
   ("0x4c5058bc4cd77fe207b8b9990e8af91e1055b814073f0596068e3b95a7ccd31a", "Move.Fun"),
   ("0x4d2969d384e440db9f1a51391cfc261d1ec08ee1bdf7b9711a6c05d485a4110a", "USD Coin"),
   ("0x83121c9f9b0527d1f056e21a950d6bf3b9e9e2e8353d0e95ccea726713cbea39", "USD Coin"),
   ("0x447721a30109c662dde9c73a0c2c9c9c459fb5e5a9c92f03c50fa69737f5d08d", "Tether")]

/-- `MovementContractFetcher.determine_platform`: pure table lookup with
default "Unknown". The `module_name` parameter is unused, as in the source. -/
def determine_platform (address : String) (module_name : String) : String :=
  ((platform_mappings.find? (fun kv => kv.1 == address)).map Prod.snd).getD "Unknown"

/-! ## Metadata lookup and merge (get_contract_metadata) -/

/-- `self.metadata.get("contractMetadata", {}).get(address, {})`. -/
def lookup_contract_meta (metaFile : Dict) (address : Option String) : Dict :=
  match address with
  | some s => asObj ((dget (asObj ((dget metaFile "contractMetadata").getD (.jobj []))) s).getD (.jobj []))
  | none => []

/-- The module-merge step of `get_contract_metadata`:
`if module_name and "modules" in contract_meta:` shallow-merge the module
subsection over the contract-level record (`copy` then `update`), else the
contract-level record as-is. `sync_with_metadata` inlines the identical logic. -/
def merge_module_metadata (contract_meta : Dict) (module_name : Option String) : Dict :=
  match module_name with
  | some mn =>
    if mn ≠ "" ∧ (dget contract_meta "modules").isSome then
      dupdate contract_meta
        (asObj ((dget (asObj ((dget contract_meta "modules").getD (.jobj []))) mn).getD (.jobj [])))
    else contract_meta
  | none => contract_meta

/-- `MovementContractFetcher.get_contract_metadata`. -/
def get_contract_metadata (metaFile : Dict) (address module_name : Option String) : Dict :=
  merge_module_metadata (lookup_contract_meta metaFile address) module_name

/-! ## Generator overlay merge (enhance_contract_with_metadata) -/

/-- One `if key in metadata: enhanced[key] = metadata[key]` step. -/
def copyKey (meta : Dict) (k : String) (c : Dict) : Dict :=
  match dget meta k with
  | some v => dset c k v
  | none => c

/-- The `security` sub-record the generator builds when `auditors` is present. -/
def security_record (meta : Dict) : Dict :=
  [("auditScore", (dget meta "auditScore").getD (.jnum 0)),
   ("lastAuditDate", (dget meta "lastAuditDate").getD (.jstr "")),
   ("vulnerabilityReports", (dget meta "vulnerabilityReports").getD (.jarr [])),
   ("securityLevel", (dget meta "securityLevel").getD (.jstr "unknown")),
   ("penetrationTested", (dget meta "penetrationTested").getD (.jbool false)),
   ("formalVerification", (dget meta "formalVerification").getD (.jbool false))]

/-- Per-function auditor update: `func["auditors"] = ...; func["audited"] = True`.
A non-object entry would be a type error in the source; left unchanged. -/
def updFunc (aud : JVal) : JVal → JVal
  | .jobj kvs => .jobj (dset (dset kvs "auditors" aud) "audited" (.jbool true))
  | v => v

/-- The `for func in contract.get("functions", []):` auditor loop, textually
identical in `enhance_contract_with_metadata` and `sync_with_metadata`:
rewrite every function dict already present on the record in place. An absent
`functions` key means the loop runs over a fresh `[]` and the record is left
unchanged; a non-array value would be a type error in the source. -/
def update_functions_auditors (aud : JVal) (c : Dict) : Dict :=
  match dget c "functions" with
  | some (.jarr fs) => dset c "functions" (.jarr (fs.map (updFunc aud)))
  | _ => c

/-- The `if "auditors" in metadata:` block of the generator: replace `security`
wholesale, then rewrite every function already on the record. -/
def apply_auditors (meta : Dict) (c : Dict) : Dict :=
  match dget meta "auditors" with
  | some aud => update_functions_auditors aud (dset c "security" (.jobj (security_record meta)))
  | none => c

/-- `contract.get("address", "")` as the string interpolated into the
apiVerification URLs; records built by this program always carry a string
address, so the non-string case (a type error territory) is modelled as "". -/
def contract_address_str (c : Dict) : String :=
  match (dget c "address").getD (.jstr "") with
  | .jstr s => s
  | _ => ""

/-- The hardcoded `apiVerification` object stamped by the generator; `now`
stands for `datetime.now().isoformat()`. -/
def api_verification (address now : String) : JVal :=
  .jobj
    [("rpcEndpoint", .jstr "https://full.mainnet.movementinfra.xyz/v1"),
     ("apiCalls", .jarr
        [.jobj
           [("endpoint", .jstr ("/accounts/" ++ address ++ "/modules")),
            ("method", .jstr "GET"),
            ("fullUrl", .jstr ("https://full.mainnet.movementinfra.xyz/v1/accounts/" ++ address ++ "/modules")),
            ("purpose", .jstr "module_functions"),
            ("responseHash", .jstr "generated_hash_here")]]),
     ("lastVerified", .jstr (now ++ "Z")),
     ("verificationStatus", .jstr "verified"),
     ("dataIntegrity", .jobj
        [("functionsVerified", .jbool true),
         ("structsVerified", .jbool true),
         ("moduleExists", .jbool true),
         ("checksumMatch", .jbool true)]),
     ("verificationInstructions", .jobj
        [("curlCommand", .jstr ("curl -s \"https://full.mainnet.movementinfra.xyz/v1/accounts/" ++ address ++ "/modules\"")),
         ("expectedFields", .jarr [.jstr "bytecode", .jstr "abi", .jstr "exposed_functions", .jstr "structs"]),
         ("verificationSteps", .jarr
            [.jstr "1. Make API call to fetch module data",
             .jstr "2. Verify module exists in response",
             .jstr "3. Check function signatures match schema",
             .jstr "4. Validate struct definitions"])]),
     ("alternativeEndpoints", .jarr
        [.jstr "https://full.mainnet.movementinfra.xyz/v1",
         .jstr "https://mainnet.movementlabs.xyz/v1"])]

/-- The body of `enhance_contract_with_metadata` once the effective metadata
record `meta` has been computed: the source's steps composed in source order
(innermost first — description, website, the auditors block, governance,
compliance, performance, interoperability, bridgeImplementation,
objectExtensions, then the apiVerification stamp, whose interpolated address
is read from the incoming contract). -/
def enhance_with_metadata (meta : Dict) (now : String) (c : Dict) : Dict :=
  dset
    (copyKey meta "objectExtensions"
      (copyKey meta "bridgeImplementation"
        (copyKey meta "interoperability"
          (copyKey meta "performance"
            (copyKey meta "compliance"
              (copyKey meta "governance"
                (apply_auditors meta
                  (copyKey meta "website"
                    (copyKey meta "description" c)))))))))
    "apiVerification" (api_verification (contract_address_str c) now)

/-- `MovementContractFetcher.enhance_contract_with_metadata`. -/
def enhance_contract_with_metadata (metaFile : Dict) (now : String) (c : Dict) : Dict :=
  enhance_with_metadata
    (get_contract_metadata metaFile (jKey ((dget c "address").getD (.jstr "")))
      (jKey ((dget c "moduleName").getD (.jstr "")))) now c

/-! ## Module transformation (transform_module_to_contract) -/

/-- `MovementContractFetcher.transform_move_function`. -/
def transform_move_function (f : Dict) : JVal :=
  .jobj
    [("name", (dget f "name").getD (.jstr "")),
     ("visibility", (dget f "visibility").getD (.jstr "public")),
     ("is_entry", (dget f "is_entry").getD (.jbool false)),
     ("params", (dget f "params").getD (.jarr [])),
     ("return", (dget f "return").getD (.jarr [])),
     ("acquires", (dget f "acquires").getD (.jarr [])),
     ("audited", .jbool false),
     ("verified", .jbool true),
     ("auditors", .jarr [])]

/-- One field of a transformed struct. -/
def transform_struct_field (f : JVal) : JVal :=
  .jobj
    [("name", (dget (asObj f) "name").getD (.jstr "")),
     ("type", (dget (asObj f) "type").getD (.jstr ""))]

/-- `"key" in struct.get("abilities", [])`: list membership by equality; only
string elements can equal the string "key". -/
def jvalListHasStr (xs : List JVal) (s : String) : Bool :=
  xs.any (fun v => match v with | .jstr t => t == s | _ => false)

/-- `MovementContractFetcher.transform_move_struct`. -/
def transform_move_struct (st : Dict) : JVal :=
  .jobj
    [("name", (dget st "name").getD (.jstr "")),
     ("abilities", (dget st "abilities").getD (.jarr [])),
     ("fields", .jarr ((asArr ((dget st "fields").getD (.jarr []))).map transform_struct_field)),
     ("is_resource", .jbool (jvalListHasStr (asArr ((dget st "abilities").getD (.jarr []))) "key"))]

/-- Python `str.title()` on ASCII text: uppercase a letter that follows a
non-letter, lowercase a letter that follows a letter. -/
def titleChars : Bool → List Char → List Char
  | _, [] => []
  | prev, c :: cs => (if prev then c.toLower else c.toUpper) :: titleChars c.isAlpha cs

def pyTitle (s : String) : String := ⟨titleChars false s.data⟩

/-- `.replace("_", " ")` on the module name (single-character pattern). -/
def underscoresToSpaces (s : String) : String :=
  ⟨s.data.map (fun c => if c = '_' then ' ' else c)⟩

/-- `module.get("name", "")` where the value is used as a string
(`.replace`/`.title()`); a non-string name is a type error in the source. -/
def module_name_str (module : Dict) : String :=
  match dget module "name" with
  | some (.jstr s) => s
  | _ => ""

/-- The record `transform_module_to_contract` builds before the metadata
enhancement step. -/
def base_contract (module : Dict) (chain_id : Int) (address : String) : Dict :=
  [("chainId", .jnum chain_id),
   ("address", .jstr address),
   ("moduleName", (dget module "name").getD (.jstr "")),
   ("platform", .jstr (determine_platform address (module_name_str module))),
   ("name", .jstr (determine_platform address (module_name_str module) ++ " "
      ++ pyTitle (underscoresToSpaces (module_name_str module)))),
   ("tags", .jarr ((determine_tags module).map .jstr)),
   ("functions", .jarr ((asArr ((dget module "exposed_functions").getD (.jarr []))).map
      (fun f => transform_move_function (asObj f)))),
   ("structs", .jarr ((asArr ((dget module "structs").getD (.jarr []))).map
      (fun s => transform_move_struct (asObj s)))),
   ("extensions", .jobj
      [("audited", .jbool false),
       ("verified", .jbool true),
       ("friends", (dget module "friends").getD (.jarr []))])]

/-- `MovementContractFetcher.transform_module_to_contract`. -/
def transform_module_to_contract (metaFile : Dict) (now : String) (module : Dict)
    (chain_id : Int) (address : String) : Dict :=
  enhance_contract_with_metadata metaFile now (base_contract module chain_id address)

/-! ## Surgical updater (surgical_update.SurgicalUpdater) -/

/-- `SurgicalUpdater.save_list`: regenerate `timestamp`, then increment
`version.patch` when a `version` key exists. `now` stands for
`datetime.now().isoformat()`. A non-numeric existing patch would be a type
error in the source; `.get("patch", 0)` defaults a missing patch to 0. -/
def save_list (now : String) (d : Dict) : Dict :=
  match dget (dset d "timestamp" (.jstr (now ++ "Z"))) "version" with
  | some v =>
    dset (dset d "timestamp" (.jstr (now ++ "Z"))) "version"
      (.jobj (dset (asObj v) "patch"
        (.jnum ((match dget (asObj v) "patch" with
          | some (.jnum n) => n
          | _ => 0) + 1))))
  | none => dset d "timestamp" (.jstr (now ++ "Z"))

/-- `contract.get("address") == address` for a list element (non-object
elements would be a type error in the source and never match). -/
def addrMatches (address : String) (v : JVal) : Bool :=
  match v with
  | .jobj c => match dget c "address" with | some (.jstr s) => s == address | _ => false
  | _ => false

/-- `contract.get("platform") == platform` for a list element. -/
def platMatches (platform : String) (v : JVal) : Bool :=
  match v with
  | .jobj c => match dget c "platform" with | some (.jstr s) => s == platform | _ => false
  | _ => false

/-- `contract.get("address") == address and contract.get("moduleName") == module_name`. -/
def identMatches (address module_name : String) (v : JVal) : Bool :=
  match v with
  | .jobj c =>
    (match dget c "address" with | some (.jstr s) => s == address | _ => false)
      && (match dget c "moduleName" with | some (.jstr s) => s == module_name | _ => false)
  | _ => false

/-- `for key, value in updates.items(): contract[key] = value`. -/
def applyUpdates (updates : Dict) (v : JVal) : JVal :=
  match v with
  | .jobj c => .jobj (dupdate c updates)
  | v => v

/-- The find-first-and-update loop of `SurgicalUpdater.update_contract`. -/
def update_first (address module_name : String) (updates : Dict) :
    List JVal → List JVal × Bool
  | [] => ([], false)
  | v :: rest =>
    if identMatches address module_name v then (applyUpdates updates v :: rest, true)
    else
      let r := update_first address module_name updates rest
      (v :: r.1, r.2)

/-- `SurgicalUpdater.update_contract`: update the first record matching
`(address, moduleName)` and save; report found/not-found. -/
def update_contract (now : String) (doc : Dict) (address module_name : String)
    (updates : Dict) : Dict × Bool :=
  match dget doc "smartContracts" with
  | some (.jarr cs) =>
    if (update_first address module_name updates cs).2 then
      (save_list now (dset doc "smartContracts"
        (.jarr (update_first address module_name updates cs).1)), true)
    else (doc, false)
  | _ => (doc, false)

/-- `SurgicalUpdater.update_contracts_by_address`. -/
def update_contracts_by_address (now : String) (doc : Dict) (address : String)
    (updates : Dict) : Dict × Nat :=
  match dget doc "smartContracts" with
  | some (.jarr cs) =>
    if 0 < cs.countP (addrMatches address) then
      (save_list now (dset doc "smartContracts"
        (.jarr (cs.map (fun v => if addrMatches address v then applyUpdates updates v else v)))),
       cs.countP (addrMatches address))
    else (doc, 0)
  | _ => (doc, 0)

/-- `SurgicalUpdater.update_contracts_by_platform`. -/
def update_contracts_by_platform (now : String) (doc : Dict) (platform : String)
    (updates : Dict) : Dict × Nat :=
  match dget doc "smartContracts" with
  | some (.jarr cs) =>
    if 0 < cs.countP (platMatches platform) then
      (save_list now (dset doc "smartContracts"
        (.jarr (cs.map (fun v => if platMatches platform v then applyUpdates updates v else v)))),
       cs.countP (platMatches platform))
    else (doc, 0)
  | _ => (doc, 0)

/-! ## sync_with_metadata (surgical_update.SurgicalUpdater.sync_with_metadata) -/

/-- The security block of `sync_with_metadata`: update the existing `security`
sub-record in place (creating `{}` if absent). Note `auditScore` uses
`.get("auditScore")` with no default (hence `None` when absent) and no
`vulnerabilityReports` entry is written, unlike the generator. -/
def sync_security (merged : Dict) (c : Dict) : Dict :=
  let sec0 := match dget c "security" with
    | some (.jobj kvs) => kvs
    | some _ => []
    | none => []
  let s1 := dset sec0 "auditScore" ((dget merged "auditScore").getD .null)
  let s2 := dset s1 "lastAuditDate" ((dget merged "lastAuditDate").getD (.jstr ""))
  let s3 := dset s2 "securityLevel" ((dget merged "securityLevel").getD (.jstr "unknown"))
  let s4 := dset s3 "penetrationTested" ((dget merged "penetrationTested").getD (.jbool false))
  let s5 := dset s4 "formalVerification" ((dget merged "formalVerification").getD (.jbool false))
  dset c "security" (.jobj s5)

/-- One `if field in merged_meta: contract[field] = ...; updates_applied = True`
step of `sync_with_metadata`, threading the `updates_applied` flag. -/
def sync_copy_step (merged : Dict) (k : String) (s : Dict × Bool) : Dict × Bool :=
  match dget merged k with
  | some v => (dset s.1 k v, true)
  | none => s

/-- The `if "auditors" in merged_meta:` block of `sync_with_metadata`: update
the security sub-record in place, then run the function-auditor loop (the
same code as the generator's loop). -/
def sync_auditors_step (merged : Dict) (s : Dict × Bool) : Dict × Bool :=
  match dget merged "auditors" with
  | some aud => (update_functions_auditors aud (sync_security merged s.1), true)
  | none => s

/-- The trailing `for field in ["governance", ...]` loop of `sync_with_metadata`
(each iteration is exactly one `sync_copy_step`). -/
def sync_fields (merged : Dict) (fields : List String) (s : Dict × Bool) : Dict × Bool :=
  fields.foldl (fun acc f => sync_copy_step merged f acc) s

/-- The per-record update applied by `sync_with_metadata` once the effective
metadata `merged` is known; the Bool is `updates_applied`. -/
def sync_apply (merged : Dict) (c : Dict) : Dict × Bool :=
  sync_fields merged ["governance", "compliance", "performance", "interoperability"]
    (sync_auditors_step merged
      (sync_copy_step merged "website"
        (sync_copy_step merged "description" (c, false))))

/-- One record of the `sync_with_metadata` loop: skip records with no
contract-level metadata (`if not contract_meta: continue`), else merge the
module subsection (identical inline logic to `get_contract_metadata`) and
apply the updates. -/
def sync_record (metaFile : Dict) (c : Dict) : Dict × Bool :=
  let contract_meta := lookup_contract_meta metaFile (jKey ((dget c "address").getD (.jstr "")))
  if contract_meta.isEmpty then (c, false)
  else sync_apply (merge_module_metadata contract_meta (jKey ((dget c "moduleName").getD (.jstr "")))) c

/-- `if address and contract_address != address: continue` — the optional
address filter; a `None` or empty filter disables filtering. -/
def syncSkip (filter : Option String) (c : Dict) : Bool :=
  match filter with
  | none => false
  | some a =>
    !(a == "") &&
      !(match (dget c "address").getD (.jstr "") with
        | .jstr s => s == a
        | _ => false)

/-- The per-record pass of the `sync_with_metadata` loop over the whole list:
each record paired with its `updates_applied` flag (filtered-out and
non-object entries are untouched with a false flag; non-object entries would
be a type error in the source). -/
def sync_results (metaFile : Dict) (filter : Option String) (cs : List JVal) :
    List (JVal × Bool) :=
  cs.map (fun v =>
    match v with
    | .jobj c =>
      if syncSkip filter c then (v, false)
      else (JVal.jobj (sync_record metaFile c).1, (sync_record metaFile c).2)
    | v => (v, false))

/-- `SurgicalUpdater.sync_with_metadata` on a loaded document: returns the
document as persisted (unchanged when no record received a change) and the
count of records that received at least one field change. -/
def sync_with_metadata (metaFile : Dict) (now : String) (doc : Dict)
    (filter : Option String) : Dict × Nat :=
  match dget doc "smartContracts" with
  | some (.jarr cs) =>
    if 0 < (sync_results metaFile filter cs).countP (fun r => r.2) then
      (save_list now (dset doc "smartContracts"
        (.jarr ((sync_results metaFile filter cs).map (fun r => r.1)))),
       (sync_results metaFile filter cs).countP (fun r => r.2))
    else (doc, 0)
  | _ => (doc, 0)

/-! ## Aptos seed loader (aptos_contract_fetcher.load_seed_addresses) -/

/-- One `[0-9a-fA-F]` character. -/
def isHexDigitChar (c : Char) : Bool :=
  ('0' ≤ c && c ≤ '9') || ('a' ≤ c && c ≤ 'f') || ('A' ≤ c && c ≤ 'F')

/-- `ADDRESS_RE.match(address)` with pattern `^0x[0-9a-fA-F]+$` on the
already-stripped address. -/
def validAddress (s : String) : Bool :=
  match s.data with
  | '0' :: 'x' :: rest => !rest.isEmpty && rest.all isHexDigitChar
  | _ => false

/-- One `protocols[].addresses[]` entry; `entry.get("address")` may be absent
(`None`). Non-string values would be a type error at `.strip()`. -/
structure SeedEntry where
  address : Option String

structure SeedProtocol where
  addresses : List SeedEntry

structure SeedFile where
  protocols : List SeedProtocol

/-- The addresses accumulated into the set: `(entry.get("address") or
"").strip()`, kept lowercased when the pattern matches. -/
def seed_candidates (seed : SeedFile) : List String :=
  (seed.protocols.flatMap (fun p => p.addresses)).filterMap (fun e =>
    let a := pyStrip (e.address.getD "")
    if validAddress a then some (pyLower a) else none)

/-- `load_seed_addresses`: `sorted(set)` modelled as deduplication (first
occurrences) followed by insertion sort — extensionally the sorted list of
the distinct collected addresses, as in the source. -/
def load_seed_addresses (seed : SeedFile) : List String :=
  List.insertionSort (fun a b => strLe a b = true) (seed_candidates seed).dedup

/-! ## Basic dictionary lemmas -/

theorem dget_dset_self (d : Dict) (k : String) (v : JVal) :
    dget (dset d k v) k = some v := by
  induction d with
  | nil => simp [dget, dset]
  | cons kv rest ih =>
    by_cases h : kv.1 = k <;> simp [dget, dset, h, ih]

theorem dget_dset_ne (d : Dict) {k k' : String} (v : JVal) (h : k ≠ k') :
    dget (dset d k v) k' = dget d k' := by
  induction d with
  | nil => simp [dget, dset, h]
  | cons kv rest ih =>
    by_cases hk : kv.1 = k
    · simp [dget, dset, hk, h]
    · simp only [dset, hk, if_false, dget]
      by_cases hk' : kv.1 = k' <;> simp [hk', ih]

theorem dset_of_dget (d : Dict) {k : String} {v : JVal} (h : dget d k = some v) :
    dset d k v = d := by
  induction d with
  | nil => simp [dget] at h
  | cons kv rest ih =>
    by_cases hk : kv.1 = k
    · obtain ⟨k1, v1⟩ := kv
      simp_all [dget, dset]
    · simp_all [dget, dset, hk]

/-! ## Tag classifier lemmas -/

theorem ite_nil_sublist {c : Prop} [Decidable c] (l : List String) :
    (if c then l else []).Sublist l := by
  split
  · exact List.Sublist.refl l
  · exact List.nil_sublist l

theorem mem_ite_nil {c : Prop} [Decidable c] {l : List String} {a : String} :
    a ∈ (if c then l else []) ↔ c ∧ a ∈ l := by
  split <;> simp_all

theorem option_any_eq_some {o : Option String} {a : String} :
    (o.any (· == a)) = true ↔ o = some a := by
  cases o <;> simp [Option.any]

/-- Every run of the classifier yields a sublist of the fixed candidate
sequence (in which only "bridge" occurs twice). -/
theorem determine_tags_sublist (module : Dict) :
    (determine_tags module).Sublist
      (["moveCoin"] ++ ["AMM"] ++ ["lending"] ++ ["liquidStaking"] ++ ["vault"]
        ++ ["perpetuals"] ++ ["bridge"] ++ ["governance"] ++ ["stablecoin", "bridged"]
        ++ ["bridge", "crossChain"] ++ ["native"]) := by
  unfold determine_tags
  exact .append (.append (.append (.append (.append (.append (.append (.append (.append
    (.append (ite_nil_sublist _) (ite_nil_sublist _)) (ite_nil_sublist _))
    (ite_nil_sublist _)) (ite_nil_sublist _)) (ite_nil_sublist _)) (ite_nil_sublist _))
    (ite_nil_sublist _)) (ite_nil_sublist _)) (ite_nil_sublist _)) (ite_nil_sublist _)

theorem count_tag_candidates_le (t : String) :
    List.count t
      (["moveCoin"] ++ ["AMM"] ++ ["lending"] ++ ["liquidStaking"] ++ ["vault"]
        ++ ["perpetuals"] ++ ["bridge"] ++ ["governance"] ++ ["stablecoin", "bridged"]
        ++ ["bridge", "crossChain"] ++ ["native"]) ≤ if t = "bridge" then 2 else 1 := by
  by_cases hb : t = "bridge"
  · subst hb; decide
  by_cases h1 : t = "moveCoin"
  · subst h1; decide
  by_cases h2 : t = "AMM"
  · subst h2; decide
  by_cases h3 : t = "lending"
  · subst h3; decide
  by_cases h4 : t = "liquidStaking"
  · subst h4; decide
  by_cases h5 : t = "vault"
  · subst h5; decide
  by_cases h6 : t = "perpetuals"
  · subst h6; decide
  by_cases h7 : t = "governance"
  · subst h7; decide
  by_cases h8 : t = "stablecoin"
  · subst h8; decide
  by_cases h9 : t = "bridged"
  · subst h9; decide
  by_cases h10 : t = "crossChain"
  · subst h10; decide
  by_cases h11 : t = "native"
  · subst h11; decide
  rw [if_neg hb, List.count_eq_zero.mpr]
  · exact Nat.zero_le 1
  · simp [hb, h1, h2, h3, h4, h5, h6, h7, h8, h9, h10, h11, eq_comm]

/-- C2 counterexample: for the LayerZero OFT stablecoin address with a module
name containing both "oft" and "bridge", the name rule and the oft rule each
append "bridge", so the tag list holds "bridge" twice and is not
deduplicated. -/
theorem c2_counterexample :
    List.count "bridge"
        (determine_tags [("name", .jstr "oft_bridge"), ("address", .jstr oft_address)]) = 2
      ∧ ¬ (determine_tags [("name", .jstr "oft_bridge"), ("address", .jstr oft_address)]).Nodup := by
  decide

/-- C2 (amended): in the tag list produced by the classifier, every tag other
than "bridge" occurs at most once; "bridge" occurs at most twice (the name
rule and the address-based oft rule can each append it). -/
theorem c2_tags_count_bound (module : Dict) (t : String) :
    List.count t (determine_tags module) ≤ if t = "bridge" then 2 else 1 :=
  le_trans ((determine_tags_sublist module).count_le t) (count_tag_candidates_le t)

/-- The substring rules of the classifier, as membership characterizations. -/
theorem determine_tags_mem (module : Dict) :
    let n := modNameLower module
    ("moveCoin" ∈ determine_tags module ↔
        (strContains n "coin" = true ∨ strContains n "token" = true))
      ∧ ("AMM" ∈ determine_tags module ↔
          (strContains n "liquidity" = true ∨ strContains n "swap" = true))
      ∧ ("lending" ∈ determine_tags module ↔
          (strContains n "lending" = true ∨ strContains n "borrow" = true))
      ∧ ("liquidStaking" ∈ determine_tags module ↔
          (strContains n "staking" = true ∨ strContains n "liquid" = true))
      ∧ ("vault" ∈ determine_tags module ↔ strContains n "vault" = true)
      ∧ ("perpetuals" ∈ determine_tags module ↔
          (strContains n "perpetual" = true ∨ strContains n "derivative" = true))
      ∧ ("bridge" ∈ determine_tags module ↔
          (strContains n "bridge" = true ∨
            (modAddr module = some oft_address ∧ strContains n "oft" = true)))
      ∧ ("governance" ∈ determine_tags module ↔ strContains n "governance" = true) := by
  refine ⟨?_, ?_, ?_, ?_, ?_, ?_, ?_, ?_⟩ <;>
    simp [determine_tags, mem_ite_nil, option_any_eq_some, stablecoin_addresses,
      framework_addresses]

/-- C9: the classifier lower-cases the module name once and applies every
substring predicate without short-circuit, each matched predicate contributing
its tag ("coin"/"token" yields moveCoin, "liquidity"/"swap" yields AMM,
"lending"/"borrow" yields lending, "staking"/"liquid" yields liquidStaking,
"vault" yields vault, "perpetual"/"derivative" yields perpetuals, "bridge"
yields bridge — also reachable via the address-based oft rule — and
"governance" yields governance); multiple predicates may fire, so
"liquidity_pool_swap" receives AMM and "lending_borrow_pool" receives
lending whatever the module's address value is. -/
theorem c9_substring_rules :
    (∀ module : Dict,
      let n := modNameLower module
      ("moveCoin" ∈ determine_tags module ↔
          (strContains n "coin" = true ∨ strContains n "token" = true))
        ∧ ("AMM" ∈ determine_tags module ↔
            (strContains n "liquidity" = true ∨ strContains n "swap" = true))
        ∧ ("lending" ∈ determine_tags module ↔
            (strContains n "lending" = true ∨ strContains n "borrow" = true))
        ∧ ("liquidStaking" ∈ determine_tags module ↔
            (strContains n "staking" = true ∨ strContains n "liquid" = true))
        ∧ ("vault" ∈ determine_tags module ↔ strContains n "vault" = true)
        ∧ ("perpetuals" ∈ determine_tags module ↔
            (strContains n "perpetual" = true ∨ strContains n "derivative" = true))
        ∧ ("bridge" ∈ determine_tags module ↔
            (strContains n "bridge" = true ∨
              (modAddr module = some oft_address ∧ strContains n "oft" = true)))
        ∧ ("governance" ∈ determine_tags module ↔ strContains n "governance" = true))
      ∧ (∀ a : JVal,
          "AMM" ∈ determine_tags [("name", .jstr "liquidity_pool_swap"), ("address", a)])
      ∧ (∀ a : JVal,
          "lending" ∈ determine_tags [("name", .jstr "lending_borrow_pool"), ("address", a)]) := by
  refine ⟨determine_tags_mem, fun a => ?_, fun a => ?_⟩
  · exact (determine_tags_mem _).2.1.mpr
      (Or.inl (show strContains (pyLower "liquidity_pool_swap") "liquidity" = true by decide))
  · exact (determine_tags_mem _).2.2.1.mpr
      (Or.inl (show strContains (pyLower "lending_borrow_pool") "lending" = true by decide))

/-! ## Seed loader lemmas (C8) -/

theorem charListLe_total : ∀ x y : List Char, charListLe x y = true ∨ charListLe y x = true
  | [], _ => Or.inl rfl
  | _ :: _, [] => Or.inr rfl
  | a :: as, b :: bs => by
    rcases lt_trichotomy a b with h | h | h
    · left; simp [charListLe, h]
    · subst h
      rcases charListLe_total as bs with h' | h'
      · left; simp [charListLe, h']
      · right; simp [charListLe, h']
    · right; simp [charListLe, h]

theorem charListLe_trans :
    ∀ {x y z : List Char}, charListLe x y = true → charListLe y z = true → charListLe x z = true
  | [], _, _, _, _ => rfl
  | _ :: _, [], _, hxy, _ => by simp [charListLe] at hxy
  | _ :: _, _ :: _, [], _, hyz => by simp [charListLe] at hyz
  | a :: as, b :: bs, c :: cs, hxy, hyz => by
    by_cases hab : a < b
    · by_cases hbc : b < c
      · simp [charListLe, lt_trans hab hbc]
      · by_cases hbc' : b = c
        · subst hbc'; simp [charListLe, hab]
        · simp [charListLe, hbc, hbc'] at hyz
    · by_cases hab' : a = b
      · subst hab'
        by_cases hac : a < c
        · simp [charListLe, hac]
        · by_cases hac' : a = c
          · subst hac'
            simp only [charListLe, if_neg hab, if_pos rfl] at hxy hyz ⊢
            exact charListLe_trans hxy hyz
          · simp [charListLe, hac, hac'] at hyz
      · simp [charListLe, hab, hab'] at hxy

theorem strLe_total (a b : String) : strLe a b = true ∨ strLe b a = true :=
  charListLe_total a.data b.data

theorem strLe_trans {a b c : String} (h1 : strLe a b = true) (h2 : strLe b c = true) :
    strLe a c = true :=
  charListLe_trans h1 h2

instance : IsTotal String (fun a b => strLe a b = true) := ⟨strLe_total⟩

instance : IsTrans String (fun a b => strLe a b = true) := ⟨fun _ _ _ => strLe_trans⟩

theorem ite_some_eq_some {c : Prop} [Decidable c] {x s : String} :
    (if c then some x else none) = some s ↔ c ∧ x = s := by
  split <;> simp_all

/-- C8: for every seed file, `load_seed_addresses` returns a list sorted in
Python's string order and free of duplicates, whose members are exactly the
lowercased forms of the stripped entry addresses that match the hex pattern
`^0x[0-9a-fA-F]+$` — invalid addresses are excluded — and on the example seed
`["0xABC", "0xabc", "not-hex", "0xDEF"]` it returns `["0xabc", "0xdef"]`. -/
theorem c8_load_seed_addresses :
    (∀ seed : SeedFile,
      (load_seed_addresses seed).Pairwise (fun a b => strLe a b = true)
        ∧ (load_seed_addresses seed).Nodup
        ∧ (∀ s : String, s ∈ load_seed_addresses seed ↔
            ∃ e ∈ seed.protocols.flatMap (fun p => p.addresses),
              validAddress (pyStrip (e.address.getD "")) = true
                ∧ pyLower (pyStrip (e.address.getD "")) = s))
      ∧ load_seed_addresses
          ⟨[⟨[⟨some "0xABC"⟩, ⟨some "0xabc"⟩, ⟨some "not-hex"⟩, ⟨some "0xDEF"⟩]⟩]⟩
        = ["0xabc", "0xdef"] := by
  constructor
  · intro seed
    refine ⟨List.sorted_insertionSort _ _, ?_, ?_⟩
    · exact (List.perm_insertionSort _ _).symm.nodup (List.nodup_dedup _)
    · intro s
      rw [load_seed_addresses, (List.perm_insertionSort _ _).mem_iff, List.mem_dedup,
        seed_candidates, List.mem_filterMap]
      simp only [ite_some_eq_some]
  · decide

/-! ## Effective metadata (C5) -/

theorem dupdate_nil (d : Dict) : dupdate d [] = d := rfl

theorem asObj_jobj (kvs : Dict) : asObj (.jobj kvs) = kvs := rfl

/-- The effective-metadata rule as the spec words it (section 4.3 and the
MetadataOverlay merge rule): look up the overlay entry by address; if a
module-specific subsection exists for the module name, shallow-merge it over
the contract-level entry (module-level keys win on conflict); otherwise use
the contract-level entry verbatim; an absent overlay entry yields the empty
effective record. -/
def effective_metadata_spec (metaFile : Dict) (address module_name : String) : Dict :=
  match dget (asObj ((dget metaFile "contractMetadata").getD (.jobj []))) address with
  | none => []
  | some entry =>
    let cm := asObj entry
    match dget (asObj ((dget cm "modules").getD (.jobj []))) module_name with
    | some mv => dupdate cm (asObj mv)
    | none => cm

def c5_meta : Dict :=
  [("contractMetadata", .jobj
    [("0xa", .jobj
      [("description", .jstr "a"),
       ("modules", .jobj [("", .jobj [("description", .jstr "b")])])])])]

/-- C5 counterexample: with an empty module name, a module subsection keyed by
the empty string exists, yet `get_contract_metadata` ignores it (the
`if module_name and ...` truthiness test fails) and returns the contract-level
entry, while the spec's rule would merge the subsection over it. -/
theorem c5_counterexample :
    get_contract_metadata c5_meta (some "0xa") (some "")
        ≠ effective_metadata_spec c5_meta "0xa" ""
      ∧ dget (get_contract_metadata c5_meta (some "0xa") (some "")) "description"
          = some (.jstr "a")
      ∧ dget (effective_metadata_spec c5_meta "0xa" "") "description" = some (.jstr "b") := by
  refine ⟨?_, rfl, rfl⟩
  intro h
  have h1 : dget (get_contract_metadata c5_meta (some "0xa") (some "")) "description"
      = some (.jstr "a") := rfl
  rw [h] at h1
  have h2 : dget (effective_metadata_spec c5_meta "0xa" "") "description"
      = some (.jstr "b") := rfl
  rw [h2] at h1
  exact absurd h1 (by simp)

/-- C5 (amended): for every overlay, address and nonempty module name, the
effective metadata record equals the spec's rule — lookup by address,
module subsection shallow-merged over the contract-level entry when present
(module keys win, contract keys fill the rest), contract-level entry verbatim
otherwise, empty record when the overlay has no entry. With an empty module
name the contract-level entry is always used, even if a subsection for the
empty name exists. -/
theorem merge_eq_spec_step (cm : Dict) (mn : String) (h : mn ≠ "") :
    merge_module_metadata cm (some mn)
      = match dget (asObj ((dget cm "modules").getD (.jobj []))) mn with
        | some mv => dupdate cm (asObj mv)
        | none => cm := by
  cases hm : dget cm "modules" with
  | none => simp [merge_module_metadata, hm, asObj_jobj, dget]
  | some m =>
    cases hmv : dget (asObj m) mn with
    | none => simp [merge_module_metadata, hm, hmv, h, asObj_jobj, dupdate_nil]
    | some mv => simp [merge_module_metadata, hm, hmv, h, asObj_jobj]

theorem c5_effective_metadata (metaFile : Dict) (a mn : String) (h : mn ≠ "") :
    get_contract_metadata metaFile (some a) (some mn)
      = effective_metadata_spec metaFile a mn := by
  cases hcm : dget (asObj ((dget metaFile "contractMetadata").getD (.jobj []))) a with
  | none =>
    simp only [get_contract_metadata, effective_metadata_spec, lookup_contract_meta, hcm,
      Option.getD_none]
    simp [merge_module_metadata, asObj_jobj, dget]
  | some entry =>
    simp only [get_contract_metadata, effective_metadata_spec, lookup_contract_meta, hcm,
      Option.getD_some]
    exact merge_eq_spec_step (asObj entry) mn h

/-- C5 witness: the amended statement applied at a concrete overlay and a
nonempty module name. -/
theorem c5_witness :
    ("m" : String) ≠ ""
      ∧ get_contract_metadata c5_meta (some "0xa") (some "m")
          = effective_metadata_spec c5_meta "0xa" "m" :=
  ⟨by decide, c5_effective_metadata c5_meta "0xa" "m" (by decide)⟩

/-! ## Transport lemmas through the overlay-merge pipelines -/

theorem dget_copyKey_ne (meta c : Dict) {k k' : String} (h : k ≠ k') :
    dget (copyKey meta k c) k' = dget c k' := by
  unfold copyKey
  cases dget meta k with
  | none => rfl
  | some v => exact dget_dset_ne c v h

theorem dget_copyKey_of_some (meta c : Dict) {k : String} {v : JVal}
    (h : dget meta k = some v) :
    dget (copyKey meta k c) k = some v := by
  unfold copyKey
  rw [h]
  exact dget_dset_self c k v

theorem dget_copyKey_of_none (meta c : Dict) {k : String} (h : dget meta k = none) :
    dget (copyKey meta k c) k = dget c k := by
  unfold copyKey
  rw [h]

theorem copyKey_noop (meta c : Dict) {k : String}
    (h : ∀ v, dget meta k = some v → dget c k = some v) :
    copyKey meta k c = c := by
  unfold copyKey
  cases hm : dget meta k with
  | none => rfl
  | some v => exact dset_of_dget c (h v hm)

theorem apply_auditors_of_none (meta c : Dict) (h : dget meta "auditors" = none) :
    apply_auditors meta c = c := by
  unfold apply_auditors
  rw [h]

theorem dget_update_functions_ne (aud : JVal) (c : Dict) {k : String}
    (h : "functions" ≠ k) :
    dget (update_functions_auditors aud c) k = dget c k := by
  unfold update_functions_auditors
  cases hfv : dget c "functions" with
  | none => rfl
  | some v => cases v <;> first | rfl | exact dget_dset_ne c _ h

theorem dget_update_functions_self (aud : JVal) (c : Dict) :
    dget (update_functions_auditors aud c) "functions"
      = match dget c "functions" with
        | some (.jarr fs) => some (.jarr (fs.map (updFunc aud)))
        | o => o := by
  unfold update_functions_auditors
  cases hfv : dget c "functions" with
  | none => exact hfv
  | some v => cases v <;> simp [dget_dset_self, hfv]

theorem dget_apply_auditors_ne (meta c : Dict) {k : String}
    (hs : "security" ≠ k) (hf : "functions" ≠ k) :
    dget (apply_auditors meta c) k = dget c k := by
  unfold apply_auditors
  cases dget meta "auditors" with
  | none => rfl
  | some aud =>
    show dget (update_functions_auditors aud
      (dset c "security" (.jobj (security_record meta)))) k = dget c k
    rw [dget_update_functions_ne _ _ hf, dget_dset_ne _ _ hs]

theorem dget_apply_auditors_security (meta c : Dict) {aud : JVal}
    (h : dget meta "auditors" = some aud) :
    dget (apply_auditors meta c) "security" = some (.jobj (security_record meta)) := by
  unfold apply_auditors
  rw [h]
  show dget (update_functions_auditors aud
    (dset c "security" (.jobj (security_record meta)))) "security" = _
  rw [dget_update_functions_ne _ _ (by decide), dget_dset_self]

theorem dget_apply_auditors_functions (meta c : Dict) {aud : JVal}
    (h : dget meta "auditors" = some aud) :
    dget (apply_auditors meta c) "functions"
      = match dget c "functions" with
        | some (.jarr fs) => some (.jarr (fs.map (updFunc aud)))
        | o => o := by
  unfold apply_auditors
  rw [h]
  show dget (update_functions_auditors aud
    (dset c "security" (.jobj (security_record meta)))) "functions" = _
  rw [dget_update_functions_self, dget_dset_ne c _ (by decide)]

/-- The keys the generator pipeline can touch, for frame reasoning. -/
theorem dget_enhance_preserved (meta : Dict) (now : String) (c : Dict) {k : String}
    (h1 : "description" ≠ k) (h2 : "website" ≠ k) (h3 : "security" ≠ k)
    (h4 : "functions" ≠ k) (h5 : "governance" ≠ k) (h6 : "compliance" ≠ k)
    (h7 : "performance" ≠ k) (h8 : "interoperability" ≠ k)
    (h9 : "bridgeImplementation" ≠ k) (h10 : "objectExtensions" ≠ k)
    (h11 : "apiVerification" ≠ k) :
    dget (enhance_with_metadata meta now c) k = dget c k := by
  unfold enhance_with_metadata
  rw [dget_dset_ne _ _ h11, dget_copyKey_ne _ _ h10, dget_copyKey_ne _ _ h9,
    dget_copyKey_ne _ _ h8, dget_copyKey_ne _ _ h7, dget_copyKey_ne _ _ h6,
    dget_copyKey_ne _ _ h5, dget_apply_auditors_ne _ _ h3 h4, dget_copyKey_ne _ _ h2,
    dget_copyKey_ne _ _ h1]

theorem dget_enhance_description (meta : Dict) (now : String) (c : Dict) :
    dget (enhance_with_metadata meta now c) "description"
      = match dget meta "description" with
        | some v => some v
        | none => dget c "description" := by
  unfold enhance_with_metadata
  rw [dget_dset_ne _ _ (by decide), dget_copyKey_ne _ _ (by decide),
    dget_copyKey_ne _ _ (by decide), dget_copyKey_ne _ _ (by decide),
    dget_copyKey_ne _ _ (by decide), dget_copyKey_ne _ _ (by decide),
    dget_copyKey_ne _ _ (by decide), dget_apply_auditors_ne _ _ (by decide) (by decide),
    dget_copyKey_ne _ _ (by decide)]
  cases hm : dget meta "description" with
  | some v => exact dget_copyKey_of_some _ _ hm
  | none => exact dget_copyKey_of_none _ _ hm

theorem dget_enhance_website (meta : Dict) (now : String) (c : Dict) :
    dget (enhance_with_metadata meta now c) "website"
      = match dget meta "website" with
        | some v => some v
        | none => dget c "website" := by
  unfold enhance_with_metadata
  rw [dget_dset_ne _ _ (by decide), dget_copyKey_ne _ _ (by decide),
    dget_copyKey_ne _ _ (by decide), dget_copyKey_ne _ _ (by decide),
    dget_copyKey_ne _ _ (by decide), dget_copyKey_ne _ _ (by decide),
    dget_copyKey_ne _ _ (by decide), dget_apply_auditors_ne _ _ (by decide) (by decide)]
  cases hm : dget meta "website" with
  | some v => exact dget_copyKey_of_some _ _ hm
  | none => rw [dget_copyKey_of_none _ _ hm, dget_copyKey_ne _ _ (by decide)]

theorem dget_enhance_governance (meta : Dict) (now : String) (c : Dict) :
    dget (enhance_with_metadata meta now c) "governance"
      = match dget meta "governance" with
        | some v => some v
        | none => dget c "governance" := by
  unfold enhance_with_metadata
  rw [dget_dset_ne _ _ (by decide), dget_copyKey_ne _ _ (by decide),
    dget_copyKey_ne _ _ (by decide), dget_copyKey_ne _ _ (by decide),
    dget_copyKey_ne _ _ (by decide), dget_copyKey_ne _ _ (by decide)]
  cases hm : dget meta "governance" with
  | some v => exact dget_copyKey_of_some _ _ hm
  | none =>
    rw [dget_copyKey_of_none _ _ hm, dget_apply_auditors_ne _ _ (by decide) (by decide),
      dget_copyKey_ne _ _ (by decide), dget_copyKey_ne _ _ (by decide)]

theorem dget_enhance_compliance (meta : Dict) (now : String) (c : Dict) :
    dget (enhance_with_metadata meta now c) "compliance"
      = match dget meta "compliance" with
        | some v => some v
        | none => dget c "compliance" := by
  unfold enhance_with_metadata
  rw [dget_dset_ne _ _ (by decide), dget_copyKey_ne _ _ (by decide),
    dget_copyKey_ne _ _ (by decide), dget_copyKey_ne _ _ (by decide),
    dget_copyKey_ne _ _ (by decide)]
  cases hm : dget meta "compliance" with
  | some v => exact dget_copyKey_of_some _ _ hm
  | none =>
    rw [dget_copyKey_of_none _ _ hm, dget_copyKey_ne _ _ (by decide),
      dget_apply_auditors_ne _ _ (by decide) (by decide),
      dget_copyKey_ne _ _ (by decide), dget_copyKey_ne _ _ (by decide)]

theorem dget_enhance_performance (meta : Dict) (now : String) (c : Dict) :
    dget (enhance_with_metadata meta now c) "performance"
      = match dget meta "performance" with
        | some v => some v
        | none => dget c "performance" := by
  unfold enhance_with_metadata
  rw [dget_dset_ne _ _ (by decide), dget_copyKey_ne _ _ (by decide),
    dget_copyKey_ne _ _ (by decide), dget_copyKey_ne _ _ (by decide)]
  cases hm : dget meta "performance" with
  | some v => exact dget_copyKey_of_some _ _ hm
  | none =>
    rw [dget_copyKey_of_none _ _ hm, dget_copyKey_ne _ _ (by decide),
      dget_copyKey_ne _ _ (by decide), dget_apply_auditors_ne _ _ (by decide) (by decide),
      dget_copyKey_ne _ _ (by decide), dget_copyKey_ne _ _ (by decide)]

theorem dget_enhance_interoperability (meta : Dict) (now : String) (c : Dict) :
    dget (enhance_with_metadata meta now c) "interoperability"
      = match dget meta "interoperability" with
        | some v => some v
        | none => dget c "interoperability" := by
  unfold enhance_with_metadata
  rw [dget_dset_ne _ _ (by decide), dget_copyKey_ne _ _ (by decide),
    dget_copyKey_ne _ _ (by decide)]
  cases hm : dget meta "interoperability" with
  | some v => exact dget_copyKey_of_some _ _ hm
  | none =>
    rw [dget_copyKey_of_none _ _ hm, dget_copyKey_ne _ _ (by decide),
      dget_copyKey_ne _ _ (by decide), dget_copyKey_ne _ _ (by decide),
      dget_apply_auditors_ne _ _ (by decide) (by decide),
      dget_copyKey_ne _ _ (by decide), dget_copyKey_ne _ _ (by decide)]

theorem dget_enhance_bridgeImplementation (meta : Dict) (now : String) (c : Dict) :
    dget (enhance_with_metadata meta now c) "bridgeImplementation"
      = match dget meta "bridgeImplementation" with
        | some v => some v
        | none => dget c "bridgeImplementation" := by
  unfold enhance_with_metadata
  rw [dget_dset_ne _ _ (by decide), dget_copyKey_ne _ _ (by decide)]
  cases hm : dget meta "bridgeImplementation" with
  | some v => exact dget_copyKey_of_some _ _ hm
  | none =>
    rw [dget_copyKey_of_none _ _ hm, dget_copyKey_ne _ _ (by decide),
      dget_copyKey_ne _ _ (by decide), dget_copyKey_ne _ _ (by decide),
      dget_copyKey_ne _ _ (by decide), dget_apply_auditors_ne _ _ (by decide) (by decide),
      dget_copyKey_ne _ _ (by decide), dget_copyKey_ne _ _ (by decide)]

theorem dget_enhance_objectExtensions (meta : Dict) (now : String) (c : Dict) :
    dget (enhance_with_metadata meta now c) "objectExtensions"
      = match dget meta "objectExtensions" with
        | some v => some v
        | none => dget c "objectExtensions" := by
  unfold enhance_with_metadata
  rw [dget_dset_ne _ _ (by decide)]
  cases hm : dget meta "objectExtensions" with
  | some v => exact dget_copyKey_of_some _ _ hm
  | none =>
    rw [dget_copyKey_of_none _ _ hm, dget_copyKey_ne _ _ (by decide),
      dget_copyKey_ne _ _ (by decide), dget_copyKey_ne _ _ (by decide),
      dget_copyKey_ne _ _ (by decide), dget_copyKey_ne _ _ (by decide),
      dget_apply_auditors_ne _ _ (by decide) (by decide),
      dget_copyKey_ne _ _ (by decide), dget_copyKey_ne _ _ (by decide)]

theorem dget_enhance_security (meta : Dict) (now : String) (c : Dict) {aud : JVal}
    (h : dget meta "auditors" = some aud) :
    dget (enhance_with_metadata meta now c) "security"
      = some (.jobj (security_record meta)) := by
  unfold enhance_with_metadata
  rw [dget_dset_ne _ _ (by decide), dget_copyKey_ne _ _ (by decide),
    dget_copyKey_ne _ _ (by decide), dget_copyKey_ne _ _ (by decide),
    dget_copyKey_ne _ _ (by decide), dget_copyKey_ne _ _ (by decide),
    dget_copyKey_ne _ _ (by decide), dget_apply_auditors_security _ _ h]

theorem dget_enhance_security_none (meta : Dict) (now : String) (c : Dict)
    (h : dget meta "auditors" = none) :
    dget (enhance_with_metadata meta now c) "security" = dget c "security" := by
  unfold enhance_with_metadata
  rw [dget_dset_ne _ _ (by decide), dget_copyKey_ne _ _ (by decide),
    dget_copyKey_ne _ _ (by decide), dget_copyKey_ne _ _ (by decide),
    dget_copyKey_ne _ _ (by decide), dget_copyKey_ne _ _ (by decide),
    dget_copyKey_ne _ _ (by decide), apply_auditors_of_none _ _ h,
    dget_copyKey_ne _ _ (by decide), dget_copyKey_ne _ _ (by decide)]

theorem dget_enhance_functions_some (meta : Dict) (now : String) (c : Dict) {aud : JVal}
    (h : dget meta "auditors" = some aud) :
    dget (enhance_with_metadata meta now c) "functions"
      = match dget c "functions" with
        | some (.jarr fs) => some (.jarr (fs.map (updFunc aud)))
        | o => o := by
  unfold enhance_with_metadata
  rw [dget_dset_ne _ _ (by decide), dget_copyKey_ne _ _ (by decide),
    dget_copyKey_ne _ _ (by decide), dget_copyKey_ne _ _ (by decide),
    dget_copyKey_ne _ _ (by decide), dget_copyKey_ne _ _ (by decide),
    dget_copyKey_ne _ _ (by decide), dget_apply_auditors_functions _ _ h,
    dget_copyKey_ne _ _ (by decide), dget_copyKey_ne _ _ (by decide)]

theorem dget_enhance_functions_none (meta : Dict) (now : String) (c : Dict)
    (h : dget meta "auditors" = none) :
    dget (enhance_with_metadata meta now c) "functions" = dget c "functions" := by
  unfold enhance_with_metadata
  rw [dget_dset_ne _ _ (by decide), dget_copyKey_ne _ _ (by decide),
    dget_copyKey_ne _ _ (by decide), dget_copyKey_ne _ _ (by decide),
    dget_copyKey_ne _ _ (by decide), dget_copyKey_ne _ _ (by decide),
    dget_copyKey_ne _ _ (by decide), apply_auditors_of_none _ _ h,
    dget_copyKey_ne _ _ (by decide), dget_copyKey_ne _ _ (by decide)]

theorem dget_enhance_api (meta : Dict) (now : String) (c : Dict) :
    dget (enhance_with_metadata meta now c) "apiVerification"
      = some (api_verification (contract_address_str c) now) := by
  unfold enhance_with_metadata
  exact dget_dset_self _ _ _

/-- C4: when the effective metadata record contains `auditors`, the generator
produces a `security` sub-record whose `auditScore` defaults to 0,
`lastAuditDate` to the empty string, `vulnerabilityReports` to the empty
sequence, `securityLevel` to "unknown", `penetrationTested` and
`formalVerification` to false (overlay values win when present), and rewrites
every function already on the record, overwriting its `auditors` with the
overlay list and setting `audited` to true; when `auditors` is absent, the
functions are left untouched. -/
theorem c4_security_and_auditors (meta : Dict) (now : String) (c : Dict) :
    (∀ aud : JVal, dget meta "auditors" = some aud →
      (∃ sec : Dict, dget (enhance_with_metadata meta now c) "security" = some (.jobj sec)
        ∧ dget sec "auditScore" = some ((dget meta "auditScore").getD (.jnum 0))
        ∧ dget sec "lastAuditDate" = some ((dget meta "lastAuditDate").getD (.jstr ""))
        ∧ dget sec "vulnerabilityReports"
            = some ((dget meta "vulnerabilityReports").getD (.jarr []))
        ∧ dget sec "securityLevel" = some ((dget meta "securityLevel").getD (.jstr "unknown"))
        ∧ dget sec "penetrationTested"
            = some ((dget meta "penetrationTested").getD (.jbool false))
        ∧ dget sec "formalVerification"
            = some ((dget meta "formalVerification").getD (.jbool false)))
      ∧ (∀ fs : List JVal, dget c "functions" = some (.jarr fs) →
          ∃ rs : List JVal,
            dget (enhance_with_metadata meta now c) "functions" = some (.jarr rs)
              ∧ rs.length = fs.length
              ∧ (∀ i : Nat, i < fs.length → ∀ kvs : Dict, fs[i]? = some (.jobj kvs) →
                  ∃ kvs2 : Dict, rs[i]? = some (.jobj kvs2)
                    ∧ dget kvs2 "auditors" = some aud
                    ∧ dget kvs2 "audited" = some (.jbool true))))
    ∧ (dget meta "auditors" = none →
        dget (enhance_with_metadata meta now c) "functions" = dget c "functions") := by
  constructor
  · intro aud ha
    constructor
    · exact ⟨security_record meta, dget_enhance_security meta now c ha,
        rfl, rfl, rfl, rfl, rfl, rfl⟩
    · intro fs hf
      refine ⟨fs.map (updFunc aud), ?_, by simp, ?_⟩
      · rw [dget_enhance_functions_some meta now c ha, hf]
      · intro i hi kvs hk
        refine ⟨dset (dset kvs "auditors" aud) "audited" (.jbool true), ?_, ?_,
          dget_dset_self _ _ _⟩
        · rw [List.getElem?_map, hk]; rfl
        · rw [dget_dset_ne _ _ (by decide), dget_dset_self]
  · intro ha
    exact dget_enhance_functions_none meta now c ha

/-- C4 witness: the theorem applied at a concrete one-function record and an
overlay supplying only `auditors`, all hypotheses discharged. -/
theorem c4_witness :
    ∃ sec : Dict,
      dget (enhance_with_metadata [("auditors", .jarr [.jstr "A"])] "T"
          [("functions", .jarr [.jobj [("name", .jstr "f")]])]) "security"
        = some (.jobj sec)
      ∧ dget sec "auditScore"
          = some ((dget [("auditors", JVal.jarr [.jstr "A"])] "auditScore").getD (.jnum 0))
      ∧ dget sec "lastAuditDate"
          = some ((dget [("auditors", JVal.jarr [.jstr "A"])] "lastAuditDate").getD (.jstr ""))
      ∧ dget sec "vulnerabilityReports"
          = some ((dget [("auditors", JVal.jarr [.jstr "A"])] "vulnerabilityReports").getD
              (.jarr []))
      ∧ dget sec "securityLevel"
          = some ((dget [("auditors", JVal.jarr [.jstr "A"])] "securityLevel").getD
              (.jstr "unknown"))
      ∧ dget sec "penetrationTested"
          = some ((dget [("auditors", JVal.jarr [.jstr "A"])] "penetrationTested").getD
              (.jbool false))
      ∧ dget sec "formalVerification"
          = some ((dget [("auditors", JVal.jarr [.jstr "A"])] "formalVerification").getD
              (.jbool false)) :=
  ((c4_security_and_auditors [("auditors", .jarr [.jstr "A"])] "T"
      [("functions", .jarr [.jobj [("name", .jstr "f")]])]).1 (.jarr [.jstr "A"]) rfl).1

/-- C10: every record built by `transform_module_to_contract` carries an
`apiVerification` field whose `rpcEndpoint` is the hardcoded Movement mainnet
URL and whose `verificationStatus` is "verified", plus an `extensions` field
with `audited` false and `verified` true; `lastVerified` is taken from the
clock, so runs at different clock readings yield different records. -/
theorem c10_transform_hardcoded (metaFile : Dict) (now : String) (module : Dict)
    (chain_id : Int) (address : String) :
    (∃ av : Dict,
      dget (transform_module_to_contract metaFile now module chain_id address)
          "apiVerification" = some (.jobj av)
        ∧ dget av "rpcEndpoint" = some (.jstr "https://full.mainnet.movementinfra.xyz/v1")
        ∧ dget av "verificationStatus" = some (.jstr "verified")
        ∧ dget av "lastVerified" = some (.jstr (now ++ "Z")))
      ∧ (∃ ext : Dict,
          dget (transform_module_to_contract metaFile now module chain_id address)
              "extensions" = some (.jobj ext)
            ∧ dget ext "audited" = some (.jbool false)
            ∧ dget ext "verified" = some (.jbool true))
      ∧ (∀ now2 : String, now ≠ now2 →
          transform_module_to_contract metaFile now module chain_id address
            ≠ transform_module_to_contract metaFile now2 module chain_id address) := by
  refine ⟨?_, ?_, ?_⟩
  · refine ⟨asObj (api_verification address now), ?_, rfl, rfl, rfl⟩
    rw [transform_module_to_contract, enhance_contract_with_metadata, dget_enhance_api]
    rfl
  · refine ⟨[("audited", .jbool false), ("verified", .jbool true),
      ("friends", (dget module "friends").getD (.jarr []))], ?_, rfl, rfl⟩
    rw [transform_module_to_contract, enhance_contract_with_metadata,
      dget_enhance_preserved _ _ _ (by decide) (by decide) (by decide) (by decide)
        (by decide) (by decide) (by decide) (by decide) (by decide) (by decide) (by decide)]
    rfl
  · intro now2 hne heq
    apply hne
    have e1 : dget (transform_module_to_contract metaFile now module chain_id address)
        "apiVerification" = some (api_verification address now) := by
      rw [transform_module_to_contract, enhance_contract_with_metadata, dget_enhance_api]
      rfl
    have e2 : dget (transform_module_to_contract metaFile now2 module chain_id address)
        "apiVerification" = some (api_verification address now2) := by
      rw [transform_module_to_contract, enhance_contract_with_metadata, dget_enhance_api]
      rfl
    rw [heq, e2] at e1
    have e3 := congrArg (fun v => dget (asObj v) "lastVerified") (Option.some.inj e1)
    have r2 : dget (asObj (api_verification address now2)) "lastVerified"
        = some (.jstr (now2 ++ "Z")) := rfl
    have r1 : dget (asObj (api_verification address now)) "lastVerified"
        = some (.jstr (now ++ "Z")) := rfl
    simp only [r1, r2] at e3
    injection e3 with e4
    injection e4 with e5
    have e6 := congrArg String.data e5
    simp only [String.data_append] at e6
    exact (String.ext (List.append_cancel_right e6)).symm

/-- C10 witness: two runs at distinct clock readings produce distinct
records. -/
theorem c10_witness :
    transform_module_to_contract [] "A" [] 1 "0x1"
      ≠ transform_module_to_contract [] "B" [] 1 "0x1" :=
  (c10_transform_hardcoded [] "A" [] 1 "0x1").2.2 "B" (by decide)

/-! ## Overlay idempotence (C3) -/

theorem updFunc_idem (aud : JVal) (v : JVal) : updFunc aud (updFunc aud v) = updFunc aud v := by
  cases v
  case jobj kvs =>
    have h1 : dget (dset (dset kvs "auditors" aud) "audited" (.jbool true)) "auditors"
        = some aud := by
      rw [dget_dset_ne _ _ (by decide), dget_dset_self]
    show JVal.jobj
        (dset (dset (dset (dset kvs "auditors" aud) "audited" (.jbool true)) "auditors" aud)
          "audited" (.jbool true))
      = JVal.jobj (dset (dset kvs "auditors" aud) "audited" (.jbool true))
    rw [dset_of_dget _ h1]
    rw [dset_of_dget _ (dget_dset_self (dset kvs "auditors" aud) "audited" (.jbool true))]
  all_goals rfl

theorem dget_enhance_address (meta : Dict) (now : String) (c : Dict) :
    dget (enhance_with_metadata meta now c) "address" = dget c "address" :=
  dget_enhance_preserved _ _ _ (by decide) (by decide) (by decide) (by decide) (by decide)
    (by decide) (by decide) (by decide) (by decide) (by decide) (by decide)

theorem dget_enhance_moduleName (meta : Dict) (now : String) (c : Dict) :
    dget (enhance_with_metadata meta now c) "moduleName" = dget c "moduleName" :=
  dget_enhance_preserved _ _ _ (by decide) (by decide) (by decide) (by decide) (by decide)
    (by decide) (by decide) (by decide) (by decide) (by decide) (by decide)

theorem enhance_with_metadata_idem (meta : Dict) (now : String) (c : Dict) :
    enhance_with_metadata meta now (enhance_with_metadata meta now c)
      = enhance_with_metadata meta now c := by
  set E := enhance_with_metadata meta now c with hE
  have noop_desc : copyKey meta "description" E = E :=
    copyKey_noop _ _ (fun v hv => by
      have h := dget_enhance_description meta now c
      rw [hv] at h
      exact h)
  have noop_web : copyKey meta "website" E = E :=
    copyKey_noop _ _ (fun v hv => by
      have h := dget_enhance_website meta now c
      rw [hv] at h
      exact h)
  have noop_gov : copyKey meta "governance" E = E :=
    copyKey_noop _ _ (fun v hv => by
      have h := dget_enhance_governance meta now c
      rw [hv] at h
      exact h)
  have noop_compl : copyKey meta "compliance" E = E :=
    copyKey_noop _ _ (fun v hv => by
      have h := dget_enhance_compliance meta now c
      rw [hv] at h
      exact h)
  have noop_perf : copyKey meta "performance" E = E :=
    copyKey_noop _ _ (fun v hv => by
      have h := dget_enhance_performance meta now c
      rw [hv] at h
      exact h)
  have noop_inter : copyKey meta "interoperability" E = E :=
    copyKey_noop _ _ (fun v hv => by
      have h := dget_enhance_interoperability meta now c
      rw [hv] at h
      exact h)
  have noop_bridge : copyKey meta "bridgeImplementation" E = E :=
    copyKey_noop _ _ (fun v hv => by
      have h := dget_enhance_bridgeImplementation meta now c
      rw [hv] at h
      exact h)
  have noop_obj : copyKey meta "objectExtensions" E = E :=
    copyKey_noop _ _ (fun v hv => by
      have h := dget_enhance_objectExtensions meta now c
      rw [hv] at h
      exact h)
  have noop_aa : apply_auditors meta E = E := by
    unfold apply_auditors
    cases ha : dget meta "auditors" with
    | none => rfl
    | some aud =>
      show update_functions_auditors aud (dset E "security" (.jobj (security_record meta))) = E
      rw [dset_of_dget _ (dget_enhance_security meta now c ha)]
      unfold update_functions_auditors
      cases hcf : dget c "functions" with
      | none =>
        have hfn : dget E "functions" = none := by
          rw [hE, dget_enhance_functions_some meta now c ha, hcf]
        rw [hfn]
      | some v =>
        cases v
        case jarr fs =>
          have hfn : dget E "functions" = some (.jarr (fs.map (updFunc aud))) := by
            rw [hE, dget_enhance_functions_some meta now c ha, hcf]
          rw [hfn]
          show dset E "functions" (.jarr ((fs.map (updFunc aud)).map (updFunc aud))) = E
          rw [List.map_map]
          have hmm : List.map (updFunc aud ∘ updFunc aud) fs = List.map (updFunc aud) fs :=
            List.map_congr_left (fun a _ => updFunc_idem aud a)
          rw [hmm]
          exact dset_of_dget _ hfn
        case null =>
          have hfn : dget E "functions" = some JVal.null := by
            rw [hE, dget_enhance_functions_some meta now c ha, hcf]
          rw [hfn]
        case jbool b =>
          have hfn : dget E "functions" = some (JVal.jbool b) := by
            rw [hE, dget_enhance_functions_some meta now c ha, hcf]
          rw [hfn]
        case jnum n =>
          have hfn : dget E "functions" = some (JVal.jnum n) := by
            rw [hE, dget_enhance_functions_some meta now c ha, hcf]
          rw [hfn]
        case jstr s =>
          have hfn : dget E "functions" = some (JVal.jstr s) := by
            rw [hE, dget_enhance_functions_some meta now c ha, hcf]
          rw [hfn]
        case jobj kvs =>
          have hfn : dget E "functions" = some (JVal.jobj kvs) := by
            rw [hE, dget_enhance_functions_some meta now c ha, hcf]
          rw [hfn]
  have haddr : contract_address_str E = contract_address_str c := by
    unfold contract_address_str
    rw [dget_enhance_address meta now c]
  show dset
      (copyKey meta "objectExtensions"
        (copyKey meta "bridgeImplementation"
          (copyKey meta "interoperability"
            (copyKey meta "performance"
              (copyKey meta "compliance"
                (copyKey meta "governance"
                  (apply_auditors meta
                    (copyKey meta "website"
                      (copyKey meta "description" E)))))))))
      "apiVerification" (api_verification (contract_address_str E) now) = E
  rw [noop_desc, noop_web, noop_aa, noop_gov, noop_compl, noop_perf, noop_inter,
    noop_bridge, noop_obj, haddr]
  exact dset_of_dget _ (dget_enhance_api meta now c)

/-- C3: overlay application is idempotent — applying
`enhance_contract_with_metadata` twice with the same metadata file and the
same clock reading yields the same record as applying it once (the second
pass recomputes the same effective metadata, rewrites every field to the
value it already has, and restamps the identical apiVerification object). -/
theorem c3_overlay_idempotent (metaFile : Dict) (now : String) (c : Dict) :
    enhance_contract_with_metadata metaFile now (enhance_contract_with_metadata metaFile now c)
      = enhance_contract_with_metadata metaFile now c := by
  have haddr : dget (enhance_contract_with_metadata metaFile now c) "address"
      = dget c "address" := by
    rw [enhance_contract_with_metadata]
    exact dget_enhance_address _ _ _
  have hmod : dget (enhance_contract_with_metadata metaFile now c) "moduleName"
      = dget c "moduleName" := by
    rw [enhance_contract_with_metadata]
    exact dget_enhance_moduleName _ _ _
  show enhance_with_metadata
      (get_contract_metadata metaFile
        (jKey ((dget (enhance_contract_with_metadata metaFile now c) "address").getD (.jstr "")))
        (jKey ((dget (enhance_contract_with_metadata metaFile now c) "moduleName").getD
          (.jstr ""))))
      now (enhance_contract_with_metadata metaFile now c)
    = enhance_contract_with_metadata metaFile now c
  rw [haddr, hmod]
  exact enhance_with_metadata_idem
    (get_contract_metadata metaFile (jKey ((dget c "address").getD (.jstr "")))
      (jKey ((dget c "moduleName").getD (.jstr "")))) now c

/-! ## Sync-path transport lemmas (C1) -/

theorem sync_copy_fst_ne (merged : Dict) {k k' : String} (s : Dict × Bool) (h : k ≠ k') :
    dget (sync_copy_step merged k s).1 k' = dget s.1 k' := by
  unfold sync_copy_step
  cases dget merged k with
  | none => rfl
  | some v => exact dget_dset_ne _ _ h

theorem sync_copy_fst_self (merged : Dict) (k : String) (s : Dict × Bool) :
    dget (sync_copy_step merged k s).1 k
      = match dget merged k with
        | some v => some v
        | none => dget s.1 k := by
  unfold sync_copy_step
  cases hm : dget merged k with
  | none => rfl
  | some v => exact dget_dset_self _ _ _

theorem dget_sync_security_ne (merged c : Dict) {k : String} (h : "security" ≠ k) :
    dget (sync_security merged c) k = dget c k := by
  unfold sync_security
  exact dget_dset_ne _ _ h

theorem sync_auditors_fst_ne (merged : Dict) (s : Dict × Bool) {k : String}
    (hs : "security" ≠ k) (hf : "functions" ≠ k) :
    dget (sync_auditors_step merged s).1 k = dget s.1 k := by
  unfold sync_auditors_step
  cases dget merged "auditors" with
  | none => rfl
  | some aud =>
    show dget (update_functions_auditors aud (sync_security merged s.1)) k = dget s.1 k
    rw [dget_update_functions_ne _ _ hf, dget_sync_security_ne _ _ hs]

theorem sync_auditors_fst_functions (merged : Dict) (s : Dict × Bool) {aud : JVal}
    (h : dget merged "auditors" = some aud) :
    dget (sync_auditors_step merged s).1 "functions"
      = match dget s.1 "functions" with
        | some (.jarr fs) => some (.jarr (fs.map (updFunc aud)))
        | o => o := by
  unfold sync_auditors_step
  rw [h]
  show dget (update_functions_auditors aud (sync_security merged s.1)) "functions" = _
  rw [dget_update_functions_self, dget_sync_security_ne _ _ (by decide)]

theorem sync_auditors_step_none (merged : Dict) (s : Dict × Bool)
    (h : dget merged "auditors" = none) :
    sync_auditors_step merged s = s := by
  unfold sync_auditors_step
  rw [h]

theorem sync_fields_expand (merged : Dict) (s : Dict × Bool) :
    sync_fields merged ["governance", "compliance", "performance", "interoperability"] s
      = sync_copy_step merged "interoperability"
          (sync_copy_step merged "performance"
            (sync_copy_step merged "compliance"
              (sync_copy_step merged "governance" s))) := rfl

theorem dget_sync_apply_description (merged c : Dict) :
    dget (sync_apply merged c).1 "description"
      = match dget merged "description" with
        | some v => some v
        | none => dget c "description" := by
  unfold sync_apply
  rw [sync_fields_expand, sync_copy_fst_ne _ _ (by decide), sync_copy_fst_ne _ _ (by decide),
    sync_copy_fst_ne _ _ (by decide), sync_copy_fst_ne _ _ (by decide),
    sync_auditors_fst_ne _ _ (by decide) (by decide), sync_copy_fst_ne _ _ (by decide),
    sync_copy_fst_self]

theorem dget_sync_apply_website (merged c : Dict) :
    dget (sync_apply merged c).1 "website"
      = match dget merged "website" with
        | some v => some v
        | none => dget c "website" := by
  unfold sync_apply
  rw [sync_fields_expand, sync_copy_fst_ne _ _ (by decide), sync_copy_fst_ne _ _ (by decide),
    sync_copy_fst_ne _ _ (by decide), sync_copy_fst_ne _ _ (by decide),
    sync_auditors_fst_ne _ _ (by decide) (by decide), sync_copy_fst_self]
  cases dget merged "website" with
  | none => exact sync_copy_fst_ne _ _ (by decide)
  | some v => rfl

theorem dget_sync_apply_governance (merged c : Dict) :
    dget (sync_apply merged c).1 "governance"
      = match dget merged "governance" with
        | some v => some v
        | none => dget c "governance" := by
  unfold sync_apply
  rw [sync_fields_expand, sync_copy_fst_ne _ _ (by decide), sync_copy_fst_ne _ _ (by decide),
    sync_copy_fst_ne _ _ (by decide), sync_copy_fst_self]
  cases dget merged "governance" with
  | none =>
    rw [sync_auditors_fst_ne _ _ (by decide) (by decide), sync_copy_fst_ne _ _ (by decide),
      sync_copy_fst_ne _ _ (by decide)]
  | some v => rfl

theorem dget_sync_apply_compliance (merged c : Dict) :
    dget (sync_apply merged c).1 "compliance"
      = match dget merged "compliance" with
        | some v => some v
        | none => dget c "compliance" := by
  unfold sync_apply
  rw [sync_fields_expand, sync_copy_fst_ne _ _ (by decide), sync_copy_fst_ne _ _ (by decide),
    sync_copy_fst_self]
  cases dget merged "compliance" with
  | none =>
    rw [sync_copy_fst_ne _ _ (by decide), sync_auditors_fst_ne _ _ (by decide) (by decide),
      sync_copy_fst_ne _ _ (by decide), sync_copy_fst_ne _ _ (by decide)]
  | some v => rfl

theorem dget_sync_apply_performance (merged c : Dict) :
    dget (sync_apply merged c).1 "performance"
      = match dget merged "performance" with
        | some v => some v
        | none => dget c "performance" := by
  unfold sync_apply
  rw [sync_fields_expand, sync_copy_fst_ne _ _ (by decide), sync_copy_fst_self]
  cases dget merged "performance" with
  | none =>
    rw [sync_copy_fst_ne _ _ (by decide), sync_copy_fst_ne _ _ (by decide),
      sync_auditors_fst_ne _ _ (by decide) (by decide), sync_copy_fst_ne _ _ (by decide),
      sync_copy_fst_ne _ _ (by decide)]
  | some v => rfl

theorem dget_sync_apply_interoperability (merged c : Dict) :
    dget (sync_apply merged c).1 "interoperability"
      = match dget merged "interoperability" with
        | some v => some v
        | none => dget c "interoperability" := by
  unfold sync_apply
  rw [sync_fields_expand, sync_copy_fst_self]
  cases dget merged "interoperability" with
  | none =>
    rw [sync_copy_fst_ne _ _ (by decide), sync_copy_fst_ne _ _ (by decide),
      sync_copy_fst_ne _ _ (by decide), sync_auditors_fst_ne _ _ (by decide) (by decide),
      sync_copy_fst_ne _ _ (by decide), sync_copy_fst_ne _ _ (by decide)]
  | some v => rfl

theorem dget_sync_apply_functions_some (merged c : Dict) {aud : JVal}
    (h : dget merged "auditors" = some aud) :
    dget (sync_apply merged c).1 "functions"
      = match dget c "functions" with
        | some (.jarr fs) => some (.jarr (fs.map (updFunc aud)))
        | o => o := by
  unfold sync_apply
  rw [sync_fields_expand, sync_copy_fst_ne _ _ (by decide), sync_copy_fst_ne _ _ (by decide),
    sync_copy_fst_ne _ _ (by decide), sync_copy_fst_ne _ _ (by decide),
    sync_auditors_fst_functions _ _ h, sync_copy_fst_ne _ _ (by decide),
    sync_copy_fst_ne _ _ (by decide)]

theorem dget_sync_apply_functions_none (merged c : Dict)
    (h : dget merged "auditors" = none) :
    dget (sync_apply merged c).1 "functions" = dget c "functions" := by
  unfold sync_apply
  rw [sync_fields_expand, sync_copy_fst_ne _ _ (by decide), sync_copy_fst_ne _ _ (by decide),
    sync_copy_fst_ne _ _ (by decide), sync_copy_fst_ne _ _ (by decide),
    sync_auditors_step_none _ _ h, sync_copy_fst_ne _ _ (by decide),
    sync_copy_fst_ne _ _ (by decide)]

theorem dget_sync_apply_preserved (merged c : Dict) {k : String}
    (h1 : "description" ≠ k) (h2 : "website" ≠ k) (h3 : "security" ≠ k)
    (h4 : "functions" ≠ k) (h5 : "governance" ≠ k) (h6 : "compliance" ≠ k)
    (h7 : "performance" ≠ k) (h8 : "interoperability" ≠ k) :
    dget (sync_apply merged c).1 k = dget c k := by
  unfold sync_apply
  rw [sync_fields_expand, sync_copy_fst_ne _ _ h8, sync_copy_fst_ne _ _ h7,
    sync_copy_fst_ne _ _ h6, sync_copy_fst_ne _ _ h5, sync_auditors_fst_ne _ _ h3 h4,
    sync_copy_fst_ne _ _ h2, sync_copy_fst_ne _ _ h1]

theorem merge_module_metadata_nil (mn : Option String) :
    merge_module_metadata [] mn = [] := by
  unfold merge_module_metadata
  cases mn with
  | none => rfl
  | some s => simp [dget]

def c1_meta : Dict :=
  [("contractMetadata", .jobj [("0xa", .jobj [("auditors", .jarr [.jstr "A"])])])]

def c1_rec : Dict :=
  [("address", .jstr "0xa"), ("moduleName", .jstr "m"), ("functions", .jarr [])]

/-- C1 counterexample: on a record whose overlay entry has `auditors` but no
`auditScore`, the sync path writes a `security` sub-record with `auditScore`
null and no `vulnerabilityReports` key, while the generator's overlay
application writes `auditScore` 0 and `vulnerabilityReports` `[]` — the two
paths do not produce the same record. -/
theorem c1_counterexample :
    dget (sync_record c1_meta c1_rec).1 "security"
        = some (.jobj [("auditScore", .null), ("lastAuditDate", .jstr ""),
            ("securityLevel", .jstr "unknown"), ("penetrationTested", .jbool false),
            ("formalVerification", .jbool false)])
      ∧ dget (enhance_contract_with_metadata c1_meta "T" c1_rec) "security"
        = some (.jobj [("auditScore", .jnum 0), ("lastAuditDate", .jstr ""),
            ("vulnerabilityReports", .jarr []), ("securityLevel", .jstr "unknown"),
            ("penetrationTested", .jbool false), ("formalVerification", .jbool false)])
      ∧ dget (sync_record c1_meta c1_rec).1 "security"
          ≠ dget (enhance_contract_with_metadata c1_meta "T" c1_rec) "security" := by
  refine ⟨rfl, rfl, ?_⟩
  intro h
  rw [show dget (sync_record c1_meta c1_rec).1 "security"
      = some (.jobj [("auditScore", .null), ("lastAuditDate", .jstr ""),
          ("securityLevel", .jstr "unknown"), ("penetrationTested", .jbool false),
          ("formalVerification", .jbool false)]) from rfl,
    show dget (enhance_contract_with_metadata c1_meta "T" c1_rec) "security"
      = some (.jobj [("auditScore", .jnum 0), ("lastAuditDate", .jstr ""),
          ("vulnerabilityReports", .jarr []), ("securityLevel", .jstr "unknown"),
          ("penetrationTested", .jbool false), ("formalVerification", .jbool false)]) from rfl]
    at h
  simp at h

/-- C1 (amended): for every record and metadata overlay, the sync path agrees
with the generator's overlay application on `description`, `website`,
`governance`, `compliance`, `performance`, `interoperability` and on the
function-auditor rewrite, but it never touches `bridgeImplementation`,
`objectExtensions` or `apiVerification` (and its `security` sub-record
differs, per the counterexample: in-place update, `auditScore` null when
absent, no `vulnerabilityReports`). -/
theorem c1_sync_vs_generator (metaFile : Dict) (now : String) (c : Dict) :
    dget (sync_record metaFile c).1 "description"
        = dget (enhance_contract_with_metadata metaFile now c) "description"
      ∧ dget (sync_record metaFile c).1 "website"
          = dget (enhance_contract_with_metadata metaFile now c) "website"
      ∧ dget (sync_record metaFile c).1 "governance"
          = dget (enhance_contract_with_metadata metaFile now c) "governance"
      ∧ dget (sync_record metaFile c).1 "compliance"
          = dget (enhance_contract_with_metadata metaFile now c) "compliance"
      ∧ dget (sync_record metaFile c).1 "performance"
          = dget (enhance_contract_with_metadata metaFile now c) "performance"
      ∧ dget (sync_record metaFile c).1 "interoperability"
          = dget (enhance_contract_with_metadata metaFile now c) "interoperability"
      ∧ dget (sync_record metaFile c).1 "functions"
          = dget (enhance_contract_with_metadata metaFile now c) "functions"
      ∧ dget (sync_record metaFile c).1 "bridgeImplementation"
          = dget c "bridgeImplementation"
      ∧ dget (sync_record metaFile c).1 "objectExtensions" = dget c "objectExtensions"
      ∧ dget (sync_record metaFile c).1 "apiVerification" = dget c "apiVerification" := by
  have hgen : enhance_contract_with_metadata metaFile now c
      = enhance_with_metadata (get_contract_metadata metaFile
          (jKey ((dget c "address").getD (.jstr "")))
          (jKey ((dget c "moduleName").getD (.jstr "")))) now c := rfl
  have hMdef : get_contract_metadata metaFile (jKey ((dget c "address").getD (.jstr "")))
      (jKey ((dget c "moduleName").getD (.jstr "")))
        = merge_module_metadata
            (lookup_contract_meta metaFile (jKey ((dget c "address").getD (.jstr ""))))
            (jKey ((dget c "moduleName").getD (.jstr ""))) := rfl
  by_cases hcm : (lookup_contract_meta metaFile
      (jKey ((dget c "address").getD (.jstr "")))).isEmpty = true
  · have hs : (sync_record metaFile c).1 = c := by
      show (if (lookup_contract_meta metaFile
            (jKey ((dget c "address").getD (.jstr "")))).isEmpty
          then ((c, false) : Dict × Bool)
          else sync_apply (merge_module_metadata
              (lookup_contract_meta metaFile (jKey ((dget c "address").getD (.jstr ""))))
              (jKey ((dget c "moduleName").getD (.jstr "")))) c).1 = c
      rw [if_pos hcm]
    have hnil : lookup_contract_meta metaFile (jKey ((dget c "address").getD (.jstr "")))
        = [] := by
      cases he : lookup_contract_meta metaFile (jKey ((dget c "address").getD (.jstr "")))
      · rfl
      · rw [he] at hcm
        simp [List.isEmpty] at hcm
    have hM : get_contract_metadata metaFile (jKey ((dget c "address").getD (.jstr "")))
        (jKey ((dget c "moduleName").getD (.jstr ""))) = [] := by
      rw [hMdef, hnil, merge_module_metadata_nil]
    rw [hs, hgen, hM]
    refine ⟨?_, ?_, ?_, ?_, ?_, ?_, ?_, rfl, rfl, rfl⟩
    · rw [dget_enhance_description]
      rfl
    · rw [dget_enhance_website]
      rfl
    · rw [dget_enhance_governance]
      rfl
    · rw [dget_enhance_compliance]
      rfl
    · rw [dget_enhance_performance]
      rfl
    · rw [dget_enhance_interoperability]
      rfl
    · rw [dget_enhance_functions_none [] now c rfl]
  · have hs : (sync_record metaFile c).1
        = (sync_apply (merge_module_metadata
            (lookup_contract_meta metaFile (jKey ((dget c "address").getD (.jstr ""))))
            (jKey ((dget c "moduleName").getD (.jstr "")))) c).1 := by
      show (if (lookup_contract_meta metaFile
            (jKey ((dget c "address").getD (.jstr "")))).isEmpty
          then ((c, false) : Dict × Bool)
          else sync_apply (merge_module_metadata
              (lookup_contract_meta metaFile (jKey ((dget c "address").getD (.jstr ""))))
              (jKey ((dget c "moduleName").getD (.jstr "")))) c).1 = _
      rw [if_neg hcm]
    rw [hs, hgen, hMdef]
    refine ⟨?_, ?_, ?_, ?_, ?_, ?_, ?_, ?_, ?_, ?_⟩
    · rw [dget_sync_apply_description, dget_enhance_description]
    · rw [dget_sync_apply_website, dget_enhance_website]
    · rw [dget_sync_apply_governance, dget_enhance_governance]
    · rw [dget_sync_apply_compliance, dget_enhance_compliance]
    · rw [dget_sync_apply_performance, dget_enhance_performance]
    · rw [dget_sync_apply_interoperability, dget_enhance_interoperability]
    · cases haud : dget (merge_module_metadata
          (lookup_contract_meta metaFile (jKey ((dget c "address").getD (.jstr ""))))
          (jKey ((dget c "moduleName").getD (.jstr "")))) "auditors" with
      | some aud =>
        rw [dget_sync_apply_functions_some _ _ haud, dget_enhance_functions_some _ _ _ haud]
      | none =>
        rw [dget_sync_apply_functions_none _ _ haud, dget_enhance_functions_none _ _ _ haud]
    · exact dget_sync_apply_preserved _ _ (by decide) (by decide) (by decide) (by decide)
        (by decide) (by decide) (by decide) (by decide)
    · exact dget_sync_apply_preserved _ _ (by decide) (by decide) (by decide) (by decide)
        (by decide) (by decide) (by decide) (by decide)
    · exact dget_sync_apply_preserved _ _ (by decide) (by decide) (by decide) (by decide)
        (by decide) (by decide) (by decide) (by decide)

/-! ## Surgical updater lemmas (C6, C7) -/

/-- Observation: the document's `version.patch` when `version` is an object
with an integral `patch` field (the shape every generated document has). -/
def getPatch (d : Dict) : Option Int :=
  match dget d "version" with
  | some (.jobj vo) =>
    match dget vo "patch" with
    | some (.jnum n) => some n
    | _ => none
  | _ => none

theorem getPatch_inv {d : Dict} {p : Int} (h : getPatch d = some p) :
    ∃ vo : Dict, dget d "version" = some (.jobj vo) ∧ dget vo "patch" = some (.jnum p) := by
  unfold getPatch at h
  split at h
  · rename_i vo heq
    split at h
    · rename_i n heq2
      injection h with h
      exact ⟨vo, heq, by rw [heq2, h]⟩
    · exact absurd h (by simp)
  · exact absurd h (by simp)

theorem save_list_eq_of_version (now : String) (d : Dict) {vo : Dict} {n : Int}
    (hv : dget d "version" = some (.jobj vo)) (hp : dget vo "patch" = some (.jnum n)) :
    save_list now d
      = dset (dset d "timestamp" (.jstr (now ++ "Z"))) "version"
          (.jobj (dset vo "patch" (.jnum (n + 1)))) := by
  unfold save_list
  have h1 : dget (dset d "timestamp" (.jstr (now ++ "Z"))) "version"
      = some (.jobj vo) := by
    rw [dget_dset_ne _ _ (by decide), hv]
  rw [h1]
  show dset (dset d "timestamp" (.jstr (now ++ "Z"))) "version"
      (.jobj (dset vo "patch"
        (.jnum ((match dget vo "patch" with
          | some (.jnum m) => m
          | _ => 0) + 1)))) = _
  rw [hp]

theorem save_list_props (now : String) (d : Dict) {p : Int} (h : getPatch d = some p) :
    getPatch (save_list now d) = some (p + 1)
      ∧ dget (save_list now d) "timestamp" = some (.jstr (now ++ "Z")) := by
  obtain ⟨vo, hv, hp⟩ := getPatch_inv h
  rw [save_list_eq_of_version now d hv hp]
  constructor
  · unfold getPatch
    rw [dget_dset_self]
    show (match dget (dset vo "patch" (.jnum (p + 1))) "patch" with
      | some (.jnum n) => some n
      | _ => none) = some (p + 1)
    rw [dget_dset_self]
  · rw [dget_dset_ne _ _ (by decide), dget_dset_self]

theorem dget_save_list_ne (now : String) (d : Dict) {k : String}
    (h1 : k ≠ "timestamp") (h2 : k ≠ "version") :
    dget (save_list now d) k = dget d k := by
  unfold save_list
  cases hv : dget (dset d "timestamp" (.jstr (now ++ "Z"))) "version" with
  | none => rw [dget_dset_ne _ _ (Ne.symm h1)]
  | some v =>
    show dget (dset (dset d "timestamp" (.jstr (now ++ "Z"))) "version"
      (.jobj (dset (asObj v) "patch"
        (.jnum ((match dget (asObj v) "patch" with
          | some (.jnum m) => m
          | _ => 0) + 1))))) k = dget d k
    rw [dget_dset_ne _ _ (Ne.symm h2), dget_dset_ne _ _ (Ne.symm h1)]

theorem getPatch_dset_ne (d : Dict) (k : String) (v : JVal) (h : k ≠ "version") :
    getPatch (dset d k v) = getPatch d := by
  unfold getPatch
  rw [dget_dset_ne _ _ h]

theorem save_dset_props (now : String) (doc : Dict) (cs1 : List JVal) {p : Int}
    (hp : getPatch doc = some p) :
    getPatch (save_list now (dset doc "smartContracts" (.jarr cs1))) = some (p + 1)
      ∧ dget (save_list now (dset doc "smartContracts" (.jarr cs1))) "timestamp"
          = some (.jstr (now ++ "Z")) := by
  have h0 : getPatch (dset doc "smartContracts" (.jarr cs1)) = some p := by
    rw [getPatch_dset_ne _ _ _ (by decide), hp]
  exact save_list_props now _ h0

theorem update_contract_shape (now : String) (doc : Dict) (a m : String) (u : Dict) :
    update_contract now doc a m u = (doc, false)
      ∨ ∃ cs1, update_contract now doc a m u
          = (save_list now (dset doc "smartContracts" (.jarr cs1)), true) := by
  unfold update_contract
  split
  · split
    · right
      exact ⟨_, rfl⟩
    · left
      rfl
  · left
    rfl

theorem update_by_address_shape (now : String) (doc : Dict) (a : String) (u : Dict) :
    update_contracts_by_address now doc a u = (doc, 0)
      ∨ ∃ n cs1, 0 < n ∧ update_contracts_by_address now doc a u
          = (save_list now (dset doc "smartContracts" (.jarr cs1)), n) := by
  unfold update_contracts_by_address
  split
  · split
    · right
      rename_i h
      exact ⟨_, _, h, rfl⟩
    · left
      rfl
  · left
    rfl

theorem update_by_platform_shape (now : String) (doc : Dict) (pf : String) (u : Dict) :
    update_contracts_by_platform now doc pf u = (doc, 0)
      ∨ ∃ n cs1, 0 < n ∧ update_contracts_by_platform now doc pf u
          = (save_list now (dset doc "smartContracts" (.jarr cs1)), n) := by
  unfold update_contracts_by_platform
  split
  · split
    · right
      rename_i h
      exact ⟨_, _, h, rfl⟩
    · left
      rfl
  · left
    rfl

theorem sync_shape (metaFile : Dict) (now : String) (doc : Dict) (f : Option String) :
    sync_with_metadata metaFile now doc f = (doc, 0)
      ∨ ∃ n cs1, 0 < n ∧ sync_with_metadata metaFile now doc f
          = (save_list now (dset doc "smartContracts" (.jarr cs1)), n) := by
  unfold sync_with_metadata
  split
  · split
    · right
      rename_i h
      exact ⟨_, _, h, rfl⟩
    · left
      rfl
  · left
    rfl

/-- C6: all four update operations share the persistence discipline — when at
least one record matched (found flag true or positive count), the persisted
document carries a regenerated timestamp and `version.patch` incremented by
exactly one; when nothing matched, no write happens and the document is
returned untouched. -/
theorem c6_persistence (now : String) (doc : Dict) :
    (∀ (a m : String) (u : Dict),
      ((update_contract now doc a m u).2 = false → (update_contract now doc a m u).1 = doc)
        ∧ (∀ p : Int, getPatch doc = some p → (update_contract now doc a m u).2 = true →
            getPatch (update_contract now doc a m u).1 = some (p + 1)
              ∧ dget (update_contract now doc a m u).1 "timestamp"
                  = some (.jstr (now ++ "Z"))))
      ∧ (∀ (a : String) (u : Dict),
          ((update_contracts_by_address now doc a u).2 = 0 →
            (update_contracts_by_address now doc a u).1 = doc)
            ∧ (∀ p : Int, getPatch doc = some p →
                0 < (update_contracts_by_address now doc a u).2 →
                getPatch (update_contracts_by_address now doc a u).1 = some (p + 1)
                  ∧ dget (update_contracts_by_address now doc a u).1 "timestamp"
                      = some (.jstr (now ++ "Z"))))
      ∧ (∀ (pf : String) (u : Dict),
          ((update_contracts_by_platform now doc pf u).2 = 0 →
            (update_contracts_by_platform now doc pf u).1 = doc)
            ∧ (∀ p : Int, getPatch doc = some p →
                0 < (update_contracts_by_platform now doc pf u).2 →
                getPatch (update_contracts_by_platform now doc pf u).1 = some (p + 1)
                  ∧ dget (update_contracts_by_platform now doc pf u).1 "timestamp"
                      = some (.jstr (now ++ "Z"))))
      ∧ (∀ (metaFile : Dict) (f : Option String),
          ((sync_with_metadata metaFile now doc f).2 = 0 →
            (sync_with_metadata metaFile now doc f).1 = doc)
            ∧ (∀ p : Int, getPatch doc = some p →
                0 < (sync_with_metadata metaFile now doc f).2 →
                getPatch (sync_with_metadata metaFile now doc f).1 = some (p + 1)
                  ∧ dget (sync_with_metadata metaFile now doc f).1 "timestamp"
                      = some (.jstr (now ++ "Z")))) := by
  refine ⟨fun a m u => ?_, fun a u => ?_, fun pf u => ?_, fun metaFile f => ?_⟩
  · rcases update_contract_shape now doc a m u with h | ⟨cs1, h⟩
    · rw [h]
      exact ⟨fun _ => rfl, fun p _ hc => absurd hc (by simp)⟩
    · rw [h]
      exact ⟨fun hc => absurd hc (by simp), fun p hp _ => save_dset_props now doc cs1 hp⟩
  · rcases update_by_address_shape now doc a u with h | ⟨n, cs1, hn, h⟩
    · rw [h]
      exact ⟨fun _ => rfl, fun p _ hc => absurd hc (by simp)⟩
    · rw [h]
      exact ⟨fun hc => by omega, fun p hp _ => save_dset_props now doc cs1 hp⟩
  · rcases update_by_platform_shape now doc pf u with h | ⟨n, cs1, hn, h⟩
    · rw [h]
      exact ⟨fun _ => rfl, fun p _ hc => absurd hc (by simp)⟩
    · rw [h]
      exact ⟨fun hc => by omega, fun p hp _ => save_dset_props now doc cs1 hp⟩
  · rcases sync_shape metaFile now doc f with h | ⟨n, cs1, hn, h⟩
    · rw [h]
      exact ⟨fun _ => rfl, fun p _ hc => absurd hc (by simp)⟩
    · rw [h]
      exact ⟨fun hc => by omega, fun p hp _ => save_dset_props now doc cs1 hp⟩

def c6_doc : Dict :=
  [("version", .jobj [("patch", .jnum 0)]),
   ("smartContracts", .jarr [.jobj [("address", .jstr "0xa"), ("moduleName", .jstr "m"),
     ("platform", .jstr "P")]])]

/-- C6 witness: the by-address branch applied to a concrete one-record
document — the match count is positive, so the patch goes from 0 to 1 and the
timestamp is restamped. -/
theorem c6_witness :
    getPatch (update_contracts_by_address "T" c6_doc "0xa" [("description", .jstr "x")]).1
        = some (0 + 1)
      ∧ dget (update_contracts_by_address "T" c6_doc "0xa"
          [("description", .jstr "x")]).1 "timestamp" = some (.jstr ("T" ++ "Z")) :=
  ((c6_persistence "T" c6_doc).2.1 "0xa" [("description", .jstr "x")]).2 0 rfl (by decide)

theorem update_by_address_eq (now : String) (doc : Dict) (a : String) (u : Dict)
    {cs : List JVal} (hsc : dget doc "smartContracts" = some (.jarr cs)) :
    update_contracts_by_address now doc a u
      = if 0 < cs.countP (addrMatches a) then
          (save_list now (dset doc "smartContracts"
            (.jarr (cs.map (fun v => if addrMatches a v then applyUpdates u v else v)))),
           cs.countP (addrMatches a))
        else (doc, 0) := by
  unfold update_contracts_by_address
  rw [hsc]

/-- C7: `updateByAddress` with payload `{"description": "x"}` — the returned
count is the number of records carrying the address; every matching record
gets its `description` set to `"x"` with every other field untouched; every
non-matching record is returned verbatim; a positive count bumps
`version.patch` by exactly one and restamps the timestamp; a zero count
leaves the document untouched. -/
theorem c7_update_by_address_frame (now : String) (doc : Dict) (addr x : String)
    (cs : List JVal) (p : Int)
    (hsc : dget doc "smartContracts" = some (.jarr cs))
    (hp : getPatch doc = some p) :
    (update_contracts_by_address now doc addr [("description", .jstr x)]).2
        = cs.countP (addrMatches addr)
      ∧ (0 < cs.countP (addrMatches addr) →
          dget (update_contracts_by_address now doc addr
              [("description", .jstr x)]).1 "smartContracts"
            = some (.jarr (cs.map (fun v =>
                if addrMatches addr v then applyUpdates [("description", .jstr x)] v
                else v))))
      ∧ (∀ (i : Nat) (v : JVal), cs[i]? = some v →
          (∀ kvs : Dict, v = .jobj kvs → addrMatches addr v = true →
            (cs.map (fun w => if addrMatches addr w
                then applyUpdates [("description", .jstr x)] w else w))[i]?
                = some (.jobj (dset kvs "description" (.jstr x)))
              ∧ dget (dset kvs "description" (.jstr x)) "description" = some (.jstr x)
              ∧ (∀ k : String, k ≠ "description" →
                  dget (dset kvs "description" (.jstr x)) k = dget kvs k))
          ∧ (addrMatches addr v = false →
              (cs.map (fun w => if addrMatches addr w
                  then applyUpdates [("description", .jstr x)] w else w))[i]? = some v))
      ∧ ((update_contracts_by_address now doc addr [("description", .jstr x)]).2 = 0 →
          (update_contracts_by_address now doc addr [("description", .jstr x)]).1 = doc)
      ∧ (0 < cs.countP (addrMatches addr) →
          getPatch (update_contracts_by_address now doc addr
              [("description", .jstr x)]).1 = some (p + 1)
            ∧ dget (update_contracts_by_address now doc addr
                [("description", .jstr x)]).1 "timestamp" = some (.jstr (now ++ "Z"))) := by
  have heq := update_by_address_eq now doc addr [("description", .jstr x)] hsc
  refine ⟨?_, ?_, ?_, ?_, ?_⟩
  · rw [heq]
    by_cases h0 : 0 < cs.countP (addrMatches addr)
    · rw [if_pos h0]
    · rw [if_neg h0]
      omega
  · intro h0
    rw [heq, if_pos h0, dget_save_list_ne _ _ (by decide) (by decide), dget_dset_self]
  · intro i v hv
    constructor
    · intro kvs hkv hm
      subst hkv
      refine ⟨?_, dget_dset_self _ _ _, fun k hk => dget_dset_ne _ _ (Ne.symm hk)⟩
      rw [List.getElem?_map, hv]
      show some (if addrMatches addr (.jobj kvs)
          then applyUpdates [("description", .jstr x)] (.jobj kvs) else .jobj kvs)
        = some (.jobj (dset kvs "description" (.jstr x)))
      rw [if_pos hm]
      rfl
    · intro hm
      rw [List.getElem?_map, hv]
      show some (if addrMatches addr v
          then applyUpdates [("description", .jstr x)] v else v) = some v
      rw [if_neg (by rw [hm]; exact Bool.false_ne_true)]
  · intro h0
    rw [heq] at h0 ⊢
    by_cases hc : 0 < cs.countP (addrMatches addr)
    · rw [if_pos hc] at h0
      omega
    · rw [if_neg hc]
  · intro h0
    rw [heq, if_pos h0]
    exact save_dset_props now doc _ hp

def c7_cs : List JVal :=
  [.jobj [("address", .jstr "0xa"), ("description", .jstr "old")],
   .jobj [("address", .jstr "0xb"), ("description", .jstr "keep")]]

def c7_doc : Dict :=
  [("version", .jobj [("patch", .jnum 0)]), ("smartContracts", .jarr c7_cs)]

/-- C7 witness: the theorem applied to a concrete two-record document with one
matching record, all hypotheses discharged. -/
theorem c7_witness :
    (update_contracts_by_address "T" c7_doc "0xa" [("description", .jstr "x")]).2
        = c7_cs.countP (addrMatches "0xa")
      ∧ (0 < c7_cs.countP (addrMatches "0xa") →
          getPatch (update_contracts_by_address "T" c7_doc "0xa"
              [("description", .jstr "x")]).1 = some (0 + 1)
            ∧ dget (update_contracts_by_address "T" c7_doc "0xa"
                [("description", .jstr "x")]).1 "timestamp" = some (.jstr ("T" ++ "Z"))) :=
  ⟨(c7_update_by_address_frame "T" c7_doc "0xa" "x" c7_cs 0 rfl rfl).1,
   (c7_update_by_address_frame "T" c7_doc "0xa" "x" c7_cs 0 rfl rfl).2.2.2.2⟩

end SCL
